import Mathlib

/-!
Shallow embedding of the Apex log analyzer (`src/logAnalyzerHandler.ts`,
`LogAnalyzerHandler.analyzeApexLog` and its helpers) and of the bounded
section extractor (`src/extension.ts`, `filterLogsForMethod`).

JavaScript strings are modelled as Lean `String`s (sequences of characters;
the UTF-16 length of a string is modelled by its character count).
JavaScript numbers are modelled as follows: values that are always produced
by `parseInt` on digit captures are `Nat`; timestamps parsed by `parseFloat`
are exact fractions wrapped in `Option` where `none` stands for NaN
(`JsNum` below); derived millisecond offsets are
`Option ℤ` (`none` = NaN).  The JavaScript regular expressions used by the
source are hand-translated to character-list scanners with the same
leftmost-match semantics (each one is documented at its definition).
-/

namespace ApexLog

/-- JavaScript whitespace characters recognised by `trim` and by the regex
class `\s` (the rare Unicode space characters are not modelled; none of the
analysed code paths depend on them). -/
def jsIsWs (c : Char) : Bool :=
  c = ' ' || c = '\t' || c = '\n' || c = '\r' || c = '\x0b' || c = '\x0c'

/-- Model of JavaScript `String.prototype.trim`. -/
def jsTrim (s : String) : String :=
  ⟨((s.data.dropWhile jsIsWs).reverse.dropWhile jsIsWs).reverse⟩

/-- Number of characters of a string; models the JavaScript `length`
property (which counts UTF-16 units; identical for the ASCII log content
this code processes). -/
def jsLength (s : String) : Nat :=
  s.data.length

/-- Split helper for `jsSplitChar`, accumulating the current piece in
reverse. -/
def jsSplitCharGo (sep : Char) : List Char → List Char → List String
  | acc, [] => [⟨acc.reverse⟩]
  | acc, c :: rest =>
    if c = sep then ⟨acc.reverse⟩ :: jsSplitCharGo sep [] rest
    else jsSplitCharGo sep (c :: acc) rest

/-- Model of JavaScript `String.prototype.split` with a one-character
separator (`log.split('\n')`, `line.split('|')`, `text.split(',')`).
`"".split(sep)` gives `[""]`, exactly as in JavaScript. -/
def jsSplitChar (sep : Char) (s : String) : List String :=
  jsSplitCharGo sep [] s.data

/-- Whether `needle` is a prefix of `hay` (character lists). -/
def listStartsWith : List Char → List Char → Bool
  | _, [] => true
  | [], _ :: _ => false
  | c :: cs, d :: ds => c = d && listStartsWith cs ds

/-- Case-insensitive variant of `listStartsWith` (for the `/i` regex flag). -/
def listStartsWithCI : List Char → List Char → Bool
  | _, [] => true
  | [], _ :: _ => false
  | c :: cs, d :: ds => (c.toLower = d.toLower) && listStartsWithCI cs ds

/-- Whether `needle` occurs somewhere inside `hay`. -/
def listHasInfix (needle : List Char) : List Char → Bool
  | [] => needle.isEmpty
  | c :: rest => listStartsWith (c :: rest) needle || listHasInfix needle rest

/-- Model of JavaScript `String.prototype.includes`. -/
def jsIncludes (s sub : String) : Bool :=
  listHasInfix sub.data s.data

/-- Decimal digit test, the regex class `\d`. -/
def isDigitC (c : Char) : Bool :=
  '0' ≤ c && c ≤ '9'

/-- Numeric value of a decimal digit list (the effect of `parseInt` on a
`\d+` capture). -/
def digitsToNat (ds : List Char) : Nat :=
  ds.foldl (fun a c => a * 10 + (c.toNat - '0'.toNat)) 0

/-- Consume one or more decimal digits, returning the digits and the rest;
fails if the input does not start with a digit. -/
def chompDigits1 (cs : List Char) : Option (List Char × List Char) :=
  let p := cs.span isDigitC
  if p.1.isEmpty then none else some p

/-- Consume one expected character. -/
def chompChar (c : Char) : List Char → Option (List Char)
  | [] => none
  | d :: rest => if d = c then some rest else none

/-- Test for the regex `/^\d+:\d+:\d+/` (timestamp-like start of a line),
used by `isPartOfPreviousDebugLine` and the debug-continuation loop. -/
def tsLead (s : String) : Bool :=
  (do
    let p1 ← chompDigits1 s.data
    let r2 ← chompChar ':' p1.2
    let p3 ← chompDigits1 r2
    let r4 ← chompChar ':' p3.2
    let _ ← chompDigits1 r4
    pure ()).isSome

/-- Character class `[A-Z_]` of the stack-trace stop pattern. -/
def isTagChar (c : Char) : Bool :=
  ('A' ≤ c && c ≤ 'Z') || c = '_'

/-- Test for the stricter regex `/^\d+:\d+:\d+\|[A-Z_]+\|/` (a timestamp
immediately followed by a pipe, an uppercase tag, and a pipe), the stop
condition of the stack-trace lookahead in `processException`. -/
def newEventHeader (s : String) : Bool :=
  (do
    let p1 ← chompDigits1 s.data
    let r2 ← chompChar ':' p1.2
    let p3 ← chompDigits1 r2
    let r4 ← chompChar ':' p3.2
    let p5 ← chompDigits1 r4
    let r6 ← chompChar '|' p5.2
    let p7 := r6.span isTagChar
    if p7.1.isEmpty then none else chompChar '|' p7.2).isSome

/-- Leftmost match of `/\[(\d+)\]/` (`processUserDebug`'s source-line
extraction).  At each `[` the scanner tries greedy digits followed by `]`;
on failure it resumes at the next character, as the regex engine does. -/
def bracketNumL : List Char → Option Nat
  | [] => none
  | '[' :: rest =>
    (let p := rest.span isDigitC
     match p.2 with
     | ']' :: _ => if p.1.isEmpty then bracketNumL rest else some (digitsToNat p.1)
     | _ => bracketNumL rest)
  | _ :: rest => bracketNumL rest

/-- Leftmost match of `/(\d+)%/` (`processCodeCoverage` percentage).  At a
digit the maximal run is taken; the run matches only if it is immediately
followed by `%` (shorter sub-runs cannot match because the following
character would be a digit, mirroring the engine's backtracking). -/
def pctScan : List Char → Option Nat
  | [] => none
  | c :: rest =>
    (if isDigitC c then
       let p := rest.span isDigitC
       match p.2 with
       | '%' :: _ => some (digitsToNat (c :: p.1))
       | _ => pctScan rest
     else pctScan rest)

/-- Leftmost match of `/(\d+)\/(\d+)/` (`processCodeCoverage`
covered/total ratio). -/
def ratioScan : List Char → Option (Nat × Nat)
  | [] => none
  | c :: rest =>
    (if isDigitC c then
       let p := rest.span isDigitC
       match p.2 with
       | '/' :: r3 =>
         let q := r3.span isDigitC
         if q.1.isEmpty then ratioScan rest
         else some (digitsToNat (c :: p.1), digitsToNat q.1)
       | _ => ratioScan rest
     else ratioScan rest)

/-- Leftmost match of `/Lines not covered: ([^\|]+)/`
(`processCodeCoverage` uncovered-line list); the capture is the maximal
nonempty run of non-`|` characters after the literal. -/
def uncovScan : List Char → Option (List Char)
  | [] => none
  | c :: rest =>
    (if listStartsWith (c :: rest) "Lines not covered: ".data then
       let tail := (c :: rest).drop 19
       let cap := tail.takeWhile (fun ch => ch ≠ '|')
       if cap.isEmpty then uncovScan rest else some cap
     else uncovScan rest)

/-- Suffix part `\s*(\d+)\s*of\s*(\d+)` of the limit regex, parsed
deterministically (whitespace, digits and the literal `of` cannot
overlap). -/
def ofPat (cs : List Char) : Option (Nat × Nat) :=
  let r1 := cs.dropWhile jsIsWs
  let p1 := r1.span isDigitC
  if p1.1.isEmpty then none
  else
    let r3 := p1.2.dropWhile jsIsWs
    match r3 with
    | 'o' :: 'f' :: r4 =>
      let r5 := r4.dropWhile jsIsWs
      let p2 := r5.span isDigitC
      if p2.1.isEmpty then none else some (digitsToNat p1.1, digitsToNat p2.1)
    | _ => none

/-- Leftmost match of `/([^:]+):\s*(\d+)\s*of\s*(\d+)/` (both limit
handlers).  Because `[^:]+` cannot cross a colon, the engine's leftmost
match takes the first colon that is preceded by at least one non-colon
character and followed by the `of`-pattern; the first capture is the whole
non-colon run before that colon.  `acc` holds that run in reverse. -/
def limitScan : List Char → List Char → Option (List Char × Nat × Nat)
  | _, [] => none
  | acc, ':' :: rest =>
    (if acc.isEmpty then limitScan [] rest
     else
       match ofPat rest with
       | some ut => some (acc.reverse, ut.1, ut.2)
       | none => limitScan [] rest)
  | acc, c :: rest => limitScan (c :: acc) rest

/-- String-level wrapper for `limitScan`. -/
def limitMatch (s : String) : Option (String × Nat × Nat) :=
  (limitScan [] s.data).map (fun r => (⟨r.1⟩, r.2.1, r.2.2))

/-- Leftmost match of `/line\s+(\d+)(?:,\s*column\s+(\d+))?/i`
(`processException` line/column extraction). -/
def lineColScan : List Char → Option (Nat × Option Nat)
  | [] => none
  | c :: rest =>
    (if listStartsWithCI (c :: rest) "line".data then
       let t1 := (c :: rest).drop 4
       if (t1.takeWhile jsIsWs).isEmpty then lineColScan rest
       else
         let t2 := t1.dropWhile jsIsWs
         let p1 := t2.span isDigitC
         if p1.1.isEmpty then lineColScan rest
         else
           let col :=
             match p1.2 with
             | ',' :: r4 =>
               let r5 := r4.dropWhile jsIsWs
               if listStartsWithCI r5 "column".data then
                 let r6 := r5.drop 6
                 if (r6.takeWhile jsIsWs).isEmpty then none
                 else
                   let r7 := r6.dropWhile jsIsWs
                   let p2 := r7.span isDigitC
                   if p2.1.isEmpty then none else some (digitsToNat p2.1)
               else none
             | _ => none
           some (digitsToNat p1.1, col)
     else lineColScan rest)

/-- Leftmost match of a literal followed by `(\d+)` — used for
`/Bytes:(\d+)/` (`processHeapAllocation`) and `/Duration=(\d+)/`
(`processSoqlEnd`, `processDmlEnd`). -/
def litDigitsScan (lit : List Char) : List Char → Option Nat
  | [] => none
  | c :: rest =>
    (if listStartsWith (c :: rest) lit then
       let tail := (c :: rest).drop lit.length
       let p := tail.span isDigitC
       if p.1.isEmpty then litDigitsScan lit rest else some (digitsToNat p.1)
     else litDigitsScan lit rest)

/-- Model of `message.replace(/\\n/g, '\n')`: every literal
backslash-`n` two-character sequence becomes a newline, scanning left to
right without overlap. -/
def expandNlL : List Char → List Char
  | [] => []
  | '\\' :: 'n' :: rest => '\n' :: expandNlL rest
  | c :: rest => c :: expandNlL rest

/-- String-level wrapper for `expandNlL`. -/
def jsExpandNewlines (s : String) : String :=
  ⟨expandNlL s.data⟩

/-- Model of `message.replace(/^DEBUG\|/, '')`: strip one leading literal
`DEBUG|`. -/
def jsStripDebugTag (s : String) : String :=
  if listStartsWith s.data "DEBUG|".data then ⟨s.data.drop 6⟩ else s

/-- An exact fraction `num / den` (`den` always positive by construction)
representing a finite JavaScript number produced by `parseFloat`.  The
decimal values carried by these logs are exact in both this model and in
IEEE doubles' decimal-string round trip for the magnitudes involved. -/
structure JsNum where
  num : Int
  den : Nat
deriving DecidableEq, Repr

/-- Model of JavaScript `parseFloat` restricted to the forms that occur in
these logs: optional leading whitespace, optional sign, decimal digits with
an optional fractional part.  `none` models NaN.  (Exponent notation and
the `Infinity` literal are not modelled; the timestamp fields this is
applied to never contain them.) -/
def jsParseFloat (s : String) : Option JsNum :=
  let cs := s.data.dropWhile jsIsWs
  let sc : Int × List Char :=
    match cs with
    | '-' :: r => (-1, r)
    | '+' :: r => (1, r)
    | _ => (1, cs)
  let p1 := sc.2.span isDigitC
  match p1.2 with
  | '.' :: r =>
    let p2 := r.span isDigitC
    if p1.1.isEmpty && p2.1.isEmpty then none
    else
      some ⟨sc.1 * ((digitsToNat p1.1 : Int) * (10 ^ p2.1.length : Nat) + (digitsToNat p2.1 : Int)),
            10 ^ p2.1.length⟩
  | _ => if p1.1.isEmpty then none else some ⟨sc.1 * (digitsToNat p1.1 : Int), 1⟩

/-- Model of JavaScript `parseInt` (radix 10 forms): optional whitespace,
optional sign, leading decimal digits; `none` models NaN.  (The `0x` hex
form is not modelled; the uncovered-line lists this is applied to never
contain it.) -/
def jsParseIntZ (s : String) : Option ℤ :=
  let cs := s.data.dropWhile jsIsWs
  let sc : ℤ × List Char :=
    match cs with
    | '-' :: r => (-1, r)
    | '+' :: r => (1, r)
    | _ => (1, cs)
  let p := sc.2.span isDigitC
  if p.1.isEmpty then none else some (sc.1 * (digitsToNat p.1 : ℤ))

/-- JavaScript `Math.round` on an exact fraction: `floor (q + 1/2)`
(halves round toward positive infinity, as in JavaScript), computed as
`⌊(2·num + den) / (2·den)⌋` with floor division. -/
def jsRound (q : JsNum) : Int :=
  Int.fdiv (2 * q.num + (q.den : Int)) (2 * (q.den : Int))

/-- `Math.round((used / total) * 100)` for natural `used`, positive
`total`, computed exactly: `⌊(100·used)/total + 1/2⌋ = (200·used + total) / (2·total)`
in natural division. -/
def roundPct (used total : Nat) : Nat :=
  (200 * used + total) / (2 * total)

/-- `Math.round((c / t) * 100)` as it appears in the coverage ratio path;
`none` models the non-finite result produced when `t = 0` (`Infinity` or
NaN in JavaScript). -/
def jsRatioPct (c t : Nat) : Option Nat :=
  if t = 0 then none else some (roundPct c t)

/-- The `summary` record of `LogAnalysis`.  `totalTimeMs` is `Option ℤ`
because it is `Math.round` of a difference of parsed timestamps (`none` =
NaN); the remaining fields are always integral. -/
structure SummaryRec where
  totalTimeMs : Option ℤ
  dbTimeMs : Nat
  heapSize : Nat
  numDmlStatements : Nat
  numSoqlQueries : Nat
  numDatabaseCalls : Nat
deriving DecidableEq, Repr

/-- One entry of `analysis.debugLines`. -/
structure DebugLineRec where
  lineNumber : Nat
  message : String
  timestamp : String
deriving DecidableEq, Repr

/-- One entry of `analysis.timeline`; `timeMs` is `Option ℤ` (`none` =
NaN). -/
structure TimelineEventRec where
  event : String
  timeMs : Option ℤ
  details : Option String
deriving DecidableEq, Repr

/-- One entry of `analysis.errors`. -/
structure ErrorRec where
  message : String
  lineNumber : Option Nat
  columnNumber : Option Nat
  stackTrace : Option String
deriving DecidableEq, Repr

/-- One entry of the finalized `analysis.limits` list. -/
structure LimitUsageRec where
  name : String
  used : Nat
  total : Nat
  percentage : Nat
deriving DecidableEq, Repr

/-- One entry of `analysis.governorLimits`. -/
structure GovernorLimitRec where
  name : String
  usage : Nat
  total : Nat
deriving DecidableEq, Repr

/-- One entry of `analysis.methodCalls` (declared by the source interface
but never populated by any handler). -/
structure MethodCallRec where
  name : String
  totalTimeMs : Int
  selfTimeMs : Int
  calls : Nat
  parent : Option String
  children : Option (List String)
deriving DecidableEq, Repr

/-- The `analysis.codeCoverage` record.  `coveragePercentage` is
`Option Nat`: `none` models the non-finite number stored by the ratio path
when the total is zero; every finite value stored is a natural. -/
structure CodeCoverageRec where
  coveragePercentage : Option Nat
  linesCovered : Nat
  linesTotal : Nat
  uncoveredLines : List Int
deriving DecidableEq, Repr

/-- The `LogAnalysis` result structure of `analyzeApexLog`. -/
structure LogAnalysis where
  summary : SummaryRec
  debugLines : List DebugLineRec
  timeline : List TimelineEventRec
  errors : List ErrorRec
  limits : List LimitUsageRec
  governorLimits : List GovernorLimitRec
  methodCalls : List MethodCallRec
  codeCoverage : Option CodeCoverageRec
  hasCoverageInfo : Bool
  totalExecutionTimeMs : Option ℤ
deriving DecidableEq, Repr

/-- `initializeAnalysis` of the source. -/
def initializeAnalysis : LogAnalysis where
  summary := ⟨some 0, 0, 0, 0, 0, 0⟩
  debugLines := []
  timeline := []
  errors := []
  limits := []
  governorLimits := []
  methodCalls := []
  codeCoverage := none
  hasCoverageInfo := false
  totalExecutionTimeMs := some 0

/-- Mutable driver state of `analyzeApexLog`: the accumulator plus the
local variables `startTime`, `endTime` (parsed timestamps, `none` = NaN),
the name-keyed `limitMap`, and `lastDebugLineIndex` (`-1` = no open debug
capture). -/
structure AnalyzerState where
  analysis : LogAnalysis
  startTime : Option JsNum
  endTime : Option JsNum
  limitMap : List (String × Nat × Nat)
  lastDebugLineIndex : Int
deriving DecidableEq, Repr

/-- Initial driver state (`startTime = 0`, `endTime = 0`,
`lastDebugLineIndex = -1`, empty map). -/
def initAnalyzerState : AnalyzerState where
  analysis := initializeAnalysis
  startTime := some ⟨0, 1⟩
  endTime := some ⟨0, 1⟩
  limitMap := []
  lastDebugLineIndex := -1

/-- `Math.round((currentTime - startTime) * 1000)` with NaN propagation. -/
def relMillis (currentTime startTime : Option JsNum) : Option ℤ :=
  match currentTime, startTime with
  | some c, some s =>
    some (jsRound ⟨(c.num * (s.den : Int) - s.num * (c.den : Int)) * 1000, c.den * s.den⟩)
  | _, _ => none

/-- `isPartOfPreviousDebugLine` of the source:
`lastDebugLineIndex >= 0 && !line.match(/^\d+:\d+:\d+/)`. -/
def isPartOfPreviousDebugLine (lastDebugLineIndex : Int) (line : String) : Bool :=
  decide (0 ≤ lastDebugLineIndex) && !tsLead line

/-- Update of the last `Debug Log` timeline entry performed by
`processContinuedDebugLine` (the source scans the timeline backwards for
the first entry whose event is `Debug Log` and overwrites its details). -/
def updateFirstDebugRev (d : String) : List TimelineEventRec → List TimelineEventRec
  | [] => []
  | e :: rest =>
    if e.event = "Debug Log" then { e with details := some d } :: rest
    else e :: updateFirstDebugRev d rest

/-- `processContinuedDebugLine` of the source. -/
def processContinuedDebugLine (analysis : LogAnalysis) (line : String) : LogAnalysis :=
  match analysis.debugLines.getLast? with
  | none => analysis
  | some lastDebug =>
    let cleanedLine := jsStripDebugTag line
    let newMessage := lastDebug.message ++ "\n" ++ cleanedLine
    let newDetails :=
      "Line " ++ toString lastDebug.lineNumber ++ ": "
        ++ (jsSplitChar '\n' newMessage).getD 0 "" ++ "..."
    { analysis with
      debugLines := analysis.debugLines.dropLast ++ [{ lastDebug with message := newMessage }]
      timeline := (updateFirstDebugRev newDetails analysis.timeline.reverse).reverse }

/-- `processExecutionStarted` of the source. -/
def processExecutionStarted (analysis : LogAnalysis) : LogAnalysis :=
  { analysis with timeline := analysis.timeline ++ [⟨"Execution Started", some 0, none⟩] }

/-- `processExecutionFinished` of the source. -/
def processExecutionFinished (analysis : LogAnalysis)
    (startTime endTime : Option JsNum) : LogAnalysis :=
  let total := relMillis endTime startTime
  { analysis with
    totalExecutionTimeMs := total
    summary := { analysis.summary with totalTimeMs := total }
    timeline := analysis.timeline ++ [⟨"Execution Finished", total, none⟩] }

/-- `processSoqlQuery` of the source. -/
def processSoqlQuery (analysis : LogAnalysis) (parts : List String)
    (relativeTimeMs : Option ℤ) : LogAnalysis :=
  let queryDetails := jsTrim (String.intercalate "|" (parts.drop 2))
  { analysis with
    summary := { analysis.summary with numSoqlQueries := analysis.summary.numSoqlQueries + 1 }
    timeline := analysis.timeline ++ [⟨"SOQL Query", relativeTimeMs, some queryDetails⟩] }

/-- `processDmlOperation` of the source. -/
def processDmlOperation (analysis : LogAnalysis) (parts : List String)
    (relativeTimeMs : Option ℤ) : LogAnalysis :=
  { analysis with
    summary := { analysis.summary with numDmlStatements := analysis.summary.numDmlStatements + 1 }
    timeline := analysis.timeline ++
      [⟨"DML Operation", relativeTimeMs, some (jsTrim (String.intercalate "|" (parts.drop 2)))⟩] }

/-- The `while` loop inside `processUserDebug` that absorbs every
following line lacking a timestamp; returns the number of lines consumed
and the extended message. -/
def absorbRun : List String → String → Nat × String
  | [], message => (0, message)
  | nextLine :: rest, message =>
    if tsLead nextLine then (0, message)
    else
      let r := absorbRun rest (message ++ "\n" ++ nextLine)
      (r.1 + 1, r.2)

/-- `processUserDebug` of the source.  When `parts` has fewer than three
fields, the source's `parts[2].match(...)` throws a `TypeError` on
`undefined`; this is modelled by `Except.error ()`, which the driver
catches.  On success it returns the updated analysis and the source's
`newIndex` (the last line index consumed). -/
def processUserDebug (analysis : LogAnalysis) (lines : List String) (currentIndex : Nat)
    (parts : List String) (relativeTimeMs : Option ℤ) (timestamp : String) :
    Except Unit (LogAnalysis × Nat) :=
  if parts.length < 3 then .error ()
  else
    let lineNumber := (bracketNumL (parts.getD 2 "").data).getD 0
    let message0 := jsTrim (String.intercalate "|" (parts.drop 3))
    let message1 := jsExpandNewlines message0
    let message2 := jsStripDebugTag message1
    let r := absorbRun (lines.drop (currentIndex + 1)) message2
    let message := r.2
    let nextLineIndex := currentIndex + 1 + r.1
    let newIndex := if nextLineIndex > currentIndex + 1 then nextLineIndex - 1 else currentIndex
    let details :=
      "Line " ++ toString lineNumber ++ ": " ++ (jsSplitChar '\n' message).getD 0 ""
        ++ (if jsIncludes message "\n" then "..." else "")
    .ok
      ({ analysis with
         debugLines := analysis.debugLines ++ [⟨lineNumber, message, timestamp⟩]
         timeline := analysis.timeline ++ [⟨"Debug Log", relativeTimeMs, some details⟩] },
       newIndex)

/-- `processHeapAllocation` of the source. -/
def processHeapAllocation (analysis : LogAnalysis) (line : String) : LogAnalysis :=
  match litDigitsScan "Bytes:".data line.data with
  | some heapSize =>
    if heapSize > analysis.summary.heapSize then
      { analysis with summary := { analysis.summary with heapSize := heapSize } }
    else analysis
  | none => analysis

/-- The stack-trace lookahead loop of `processException`, over the window
of lines it can visit.  The source loop `for (j = currentIndex + 1;
j < lines.length && j < currentIndex + 30; j++)` visits the indices
`currentIndex+1 … currentIndex+29`, i.e. at most 29 lines; the caller
passes exactly that window. -/
def stackScanList : List String → String → String
  | [], acc => acc
  | nextLine :: rest, acc =>
    if newEventHeader nextLine then acc
    else
      stackScanList rest
        (if (jsTrim nextLine).isEmpty then acc
         else if acc.isEmpty then jsTrim nextLine
         else acc ++ "\n" ++ jsTrim nextLine)

/-- `processException` of the source. -/
def processException (analysis : LogAnalysis) (parts : List String)
    (relativeTimeMs : Option ℤ) (lines : List String) (currentIndex : Nat) : LogAnalysis :=
  let errorMessage := jsTrim (String.intercalate "|" (parts.drop 2))
  let lc := lineColScan errorMessage.data
  let lineNumber := lc.map (fun p => p.1)
  let columnNumber := lc.bind (fun p => p.2)
  let stackTrace := stackScanList ((lines.drop (currentIndex + 1)).take 29) ""
  let stackField := if stackTrace.isEmpty then none else some stackTrace
  { analysis with
    errors := analysis.errors ++ [⟨errorMessage, lineNumber, columnNumber, stackField⟩]
    timeline := analysis.timeline ++ [⟨"Error", relativeTimeMs, some errorMessage⟩] }

/-- `processMethodEntry` of the source (`parts[2] || 'Unknown Method'`;
both `undefined` and the empty string are falsy). -/
def processMethodEntry (analysis : LogAnalysis) (parts : List String)
    (relativeTimeMs : Option ℤ) : LogAnalysis :=
  let methodName := if (parts.getD 2 "") = "" then "Unknown Method" else parts.getD 2 ""
  { analysis with
    timeline := analysis.timeline ++ [⟨"Method Entry", relativeTimeMs, some methodName⟩] }

/-- `processMethodExit` of the source. -/
def processMethodExit (analysis : LogAnalysis) (parts : List String)
    (relativeTimeMs : Option ℤ) : LogAnalysis :=
  let methodName := if (parts.getD 2 "") = "" then "Unknown Method" else parts.getD 2 ""
  { analysis with
    timeline := analysis.timeline ++ [⟨"Method Exit", relativeTimeMs, some methodName⟩] }

/-- `limitMap.set(name, value)` where the map is modelled as an
insertion-ordered association list; as with a JavaScript `Map`, setting an
existing key overwrites in place, otherwise the entry is appended. -/
def setEntry : List (String × Nat × Nat) → String → Nat × Nat → List (String × Nat × Nat)
  | [], k, v => [(k, v)]
  | e :: rest, k, v => if e.1 = k then (e.1, v) :: rest else e :: setEntry rest k v

/-- Body of the `for` loop of `processLimitUsage` for one field. -/
def limitFoldNS (m : List (String × Nat × Nat)) (part : String) : List (String × Nat × Nat) :=
  let limitPart := jsTrim part
  if limitPart.isEmpty then m
  else
    match limitMatch limitPart with
    | some r => setEntry m (jsTrim r.1) (r.2.1, r.2.2)
    | none => m

/-- `processLimitUsage` of the source (fields from index 2 onward; only
the limit map is mutated). -/
def processLimitUsage (limitMap : List (String × Nat × Nat)) (parts : List String) :
    List (String × Nat × Nat) :=
  (parts.drop 2).foldl limitFoldNS limitMap

/-- The `used > 0 && (used / total) > 0.5` check of
`processCumulativeLimits`; when `total = 0` and `used > 0` the JavaScript
quotient is `Infinity`, which exceeds `0.5`. -/
def highUsage (used total : Nat) : Bool :=
  decide (0 < used) && (decide (total = 0) || decide (total < 2 * used))

/-- The percentage text interpolated into the high-usage details string;
`Math.round((used / total) * 100)` renders as `Infinity` when
`total = 0`. -/
def pctText (used total : Nat) : String :=
  if total = 0 then "Infinity" else toString (roundPct used total)

/-- Body of the `for` loop of `processCumulativeLimits` for one field. -/
def cumulativeFold (relativeTimeMs : Option ℤ)
    (acc : List (String × Nat × Nat) × LogAnalysis) (part : String) :
    List (String × Nat × Nat) × LogAnalysis :=
  let limitPart := jsTrim part
  if limitPart.isEmpty then acc
  else
    match limitMatch limitPart with
    | none => acc
    | some r =>
      let limitName := jsTrim r.1
      let used := r.2.1
      let total := r.2.2
      let m2 := setEntry acc.1 limitName (used, total)
      let a2 := { acc.2 with
                  governorLimits := acc.2.governorLimits ++ [⟨limitName, used, total⟩] }
      if highUsage used total then
        (m2,
         { a2 with
           timeline := a2.timeline ++
             [⟨"High Limit Usage", relativeTimeMs,
               some (limitName ++ ": " ++ toString used ++ " of " ++ toString total
                 ++ " (" ++ pctText used total ++ "%)")⟩] })
      else (m2, a2)

/-- `processCumulativeLimits` of the source (fields from index 3 onward;
mutates both the limit map and the analysis). -/
def processCumulativeLimits (limitMap : List (String × Nat × Nat)) (analysis : LogAnalysis)
    (parts : List String) (relativeTimeMs : Option ℤ) :
    List (String × Nat × Nat) × LogAnalysis :=
  (parts.drop 3).foldl (cumulativeFold relativeTimeMs) (limitMap, analysis)

/-- The uncovered-line list computation of `processCodeCoverage`:
`capture.split(',').map(n => parseInt(n.trim())).filter(n => !isNaN(n))`. -/
def uncovListOf (cap : List Char) : List Int :=
  (jsSplitChar ',' ⟨cap⟩).filterMap (fun s => jsParseIntZ (jsTrim s))

/-- `processCodeCoverage` of the source: sets the coverage flag, then runs
the three independent extractions in order (percentage, ratio, uncovered
lines), each one lazily creating or updating the coverage record. -/
def processCodeCoverage (analysis : LogAnalysis) (parts : List String) : LogAnalysis :=
  let a0 := { analysis with hasCoverageInfo := true }
  let coverageText := String.intercalate "|" (parts.drop 2)
  let a1 :=
    match pctScan coverageText.data with
    | some coveragePercentage =>
      (match a0.codeCoverage with
       | none => { a0 with codeCoverage := some ⟨some coveragePercentage, 0, 0, []⟩ }
       | some cc =>
         { a0 with codeCoverage := some { cc with coveragePercentage := some coveragePercentage } })
    | none => a0
  let a2 :=
    match ratioScan coverageText.data with
    | some ct =>
      (match a1.codeCoverage with
       | none => { a1 with codeCoverage := some ⟨jsRatioPct ct.1 ct.2, ct.1, ct.2, []⟩ }
       | some cc =>
         { a1 with codeCoverage := some { cc with linesCovered := ct.1, linesTotal := ct.2 } })
    | none => a1
  match uncovScan coverageText.data with
  | some cap =>
    (match a2.codeCoverage with
     | none => { a2 with codeCoverage := some ⟨some 0, 0, 0, uncovListOf cap⟩ }
     | some cc => { a2 with codeCoverage := some { cc with uncoveredLines := uncovListOf cap } })
  | none => a2

/-- `processSystemMode` of the source. -/
def processSystemMode (analysis : LogAnalysis) (eventType : String)
    (relativeTimeMs : Option ℤ) : LogAnalysis :=
  let isEnter := jsIncludes eventType "SYSTEM_MODE_ENTER"
  { analysis with
    timeline := analysis.timeline ++
      [⟨if isEnter then "System Mode Enter" else "System Mode Exit", relativeTimeMs, none⟩] }

/-- `processConstructor` of the source. -/
def processConstructor (analysis : LogAnalysis) (eventType : String) (parts : List String)
    (relativeTimeMs : Option ℤ) : LogAnalysis :=
  let isEntry := jsIncludes eventType "CONSTRUCTOR_ENTRY"
  let className := if (parts.getD 2 "") = "" then "Unknown Class" else parts.getD 2 ""
  { analysis with
    timeline := analysis.timeline ++
      [⟨if isEntry then "Constructor Entry" else "Constructor Exit", relativeTimeMs,
        some className⟩] }

/-- `processCustomMethod` of the source. -/
def processCustomMethod (analysis : LogAnalysis) (eventType : String) (parts : List String)
    (relativeTimeMs : Option ℤ) : LogAnalysis :=
  let isEntry := jsIncludes eventType "METHOD_ENTRY"
  let methodName := if (parts.getD 2 "") = "" then "Unknown Method" else parts.getD 2 ""
  { analysis with
    timeline := analysis.timeline ++
      [⟨if isEntry then "Method Entry" else "Method Exit", relativeTimeMs, some methodName⟩] }

/-- `processSoqlEnd` of the source. -/
def processSoqlEnd (analysis : LogAnalysis) (parts : List String)
    (relativeTimeMs : Option ℤ) : LogAnalysis :=
  match litDigitsScan "Duration=".data (String.intercalate "|" (parts.drop 2)).data with
  | some durationMs =>
    { analysis with
      summary := { analysis.summary with dbTimeMs := analysis.summary.dbTimeMs + durationMs }
      timeline := analysis.timeline ++
        [⟨"SOQL Query Completed", relativeTimeMs,
          some ("Duration: " ++ toString durationMs ++ "ms")⟩] }
  | none => analysis

/-- `processDmlEnd` of the source. -/
def processDmlEnd (analysis : LogAnalysis) (parts : List String)
    (relativeTimeMs : Option ℤ) : LogAnalysis :=
  match litDigitsScan "Duration=".data (String.intercalate "|" (parts.drop 2)).data with
  | some durationMs =>
    { analysis with
      summary := { analysis.summary with dbTimeMs := analysis.summary.dbTimeMs + durationMs }
      timeline := analysis.timeline ++
        [⟨"DML Operation Completed", relativeTimeMs,
          some ("Duration: " ++ toString durationMs ++ "ms")⟩] }
  | none => analysis

/-- One iteration of the driver loop of `analyzeApexLog` for line index
`i`; returns the new state and the index of the next line to process (the
source's `i` after the loop's `i++`).  The `try/catch` of the source is
modelled at the only site that can throw: `processUserDebug` on a line
with fewer than three fields (the `lastDebugLineIndex = i` assignment
precedes the call in the source and therefore survives the catch). -/
def analyzeStep (lines : List String) (i : Nat) (st : AnalyzerState) : AnalyzerState × Nat :=
  let line := lines.getD i ""
  if (jsTrim line).isEmpty then (st, i + 1)
  else if isPartOfPreviousDebugLine st.lastDebugLineIndex line then
    ({ st with analysis := processContinuedDebugLine st.analysis line }, i + 1)
  else
    let parts := jsSplitChar '|' line
    if parts.length < 2 then (st, i + 1)
    else
      let timestamp := parts.getD 0 ""
      let eventType := parts.getD 1 ""
      let currentTime := jsParseFloat timestamp
      let relativeTimeMs := relMillis currentTime st.startTime
      if jsIncludes eventType "EXECUTION_STARTED" then
        ({ st with startTime := currentTime
                   analysis := processExecutionStarted st.analysis
                   lastDebugLineIndex := -1 }, i + 1)
      else if jsIncludes eventType "EXECUTION_FINISHED" then
        ({ st with endTime := currentTime
                   analysis := processExecutionFinished st.analysis st.startTime currentTime
                   lastDebugLineIndex := -1 }, i + 1)
      else if jsIncludes eventType "SOQL_EXECUTE_BEGIN" then
        ({ st with analysis := processSoqlQuery st.analysis parts relativeTimeMs
                   lastDebugLineIndex := -1 }, i + 1)
      else if jsIncludes eventType "DML_BEGIN" then
        ({ st with analysis := processDmlOperation st.analysis parts relativeTimeMs
                   lastDebugLineIndex := -1 }, i + 1)
      else if jsIncludes eventType "USER_DEBUG" then
        (match processUserDebug st.analysis lines i parts relativeTimeMs timestamp with
         | .ok r => ({ st with analysis := r.1, lastDebugLineIndex := (i : Int) }, r.2 + 1)
         | .error _ => ({ st with lastDebugLineIndex := (i : Int) }, i + 1))
      else if jsIncludes eventType "HEAP_ALLOCATE" then
        ({ st with analysis := processHeapAllocation st.analysis line
                   lastDebugLineIndex := -1 }, i + 1)
      else if jsIncludes eventType "EXCEPTION_THROWN" || jsIncludes eventType "FATAL_ERROR" then
        ({ st with analysis := processException st.analysis parts relativeTimeMs lines i
                   lastDebugLineIndex := -1 }, i + 1)
      else if jsIncludes eventType "SYSTEM_METHOD_ENTRY" then
        ({ st with analysis := processMethodEntry st.analysis parts relativeTimeMs
                   lastDebugLineIndex := -1 }, i + 1)
      else if jsIncludes eventType "SYSTEM_METHOD_EXIT" then
        ({ st with analysis := processMethodExit st.analysis parts relativeTimeMs
                   lastDebugLineIndex := -1 }, i + 1)
      else if jsIncludes eventType "LIMIT_USAGE_FOR_NS" then
        ({ st with limitMap := processLimitUsage st.limitMap parts
                   lastDebugLineIndex := -1 }, i + 1)
      else if jsIncludes eventType "CUMULATIVE_LIMIT_USAGE" then
        (let r := processCumulativeLimits st.limitMap st.analysis parts relativeTimeMs
         ({ st with limitMap := r.1, analysis := r.2, lastDebugLineIndex := -1 }, i + 1))
      else if jsIncludes eventType "CUMULATIVE_PROFILING" then
        ({ st with lastDebugLineIndex := -1 }, i + 1)
      else if jsIncludes eventType "CODE_COVERAGE" then
        ({ st with analysis := processCodeCoverage st.analysis parts
                   lastDebugLineIndex := -1 }, i + 1)
      else if jsIncludes eventType "SYSTEM_MODE_ENTER" || jsIncludes eventType "SYSTEM_MODE_EXIT" then
        ({ st with analysis := processSystemMode st.analysis eventType relativeTimeMs
                   lastDebugLineIndex := -1 }, i + 1)
      else if jsIncludes eventType "CONSTRUCTOR_ENTRY" || jsIncludes eventType "CONSTRUCTOR_EXIT" then
        ({ st with analysis := processConstructor st.analysis eventType parts relativeTimeMs
                   lastDebugLineIndex := -1 }, i + 1)
      else if jsIncludes eventType "METHOD_ENTRY" || jsIncludes eventType "METHOD_EXIT" then
        ({ st with analysis := processCustomMethod st.analysis eventType parts relativeTimeMs
                   lastDebugLineIndex := -1 }, i + 1)
      else if jsIncludes eventType "SOQL_EXECUTE_END" then
        ({ st with analysis := processSoqlEnd st.analysis parts relativeTimeMs
                   lastDebugLineIndex := -1 }, i + 1)
      else if jsIncludes eventType "DML_END" then
        ({ st with analysis := processDmlEnd st.analysis parts relativeTimeMs
                   lastDebugLineIndex := -1 }, i + 1)
      else (st, i + 1)

/-- The driver `for` loop, fuelled for structural recursion.  The step
always advances the line index by at least one, so `lines.length` units of
fuel starting at index `0` are enough for the loop to run to completion
exactly as the source loop does. -/
def analyzeLoop (lines : List String) : Nat → Nat → AnalyzerState → AnalyzerState
  | 0, _, st => st
  | fuel + 1, i, st =>
    if i < lines.length then
      let r := analyzeStep lines i st
      analyzeLoop lines fuel r.2 r.1
    else st

/-- `insertByPctDesc` inserts after every element of percentage at least as
large; folding it over the list in order models the stable
`Array.prototype.sort` with comparator `(a, b) => b.percentage - a.percentage`
used by `finalizeAnalysis`. -/
def insertByPctDesc (x : LimitUsageRec) : List LimitUsageRec → List LimitUsageRec
  | [] => [x]
  | y :: ys => if x.percentage ≤ y.percentage then y :: insertByPctDesc x ys else x :: y :: ys

/-- Stable descending sort by percentage (see `insertByPctDesc`). -/
def stableSortByPctDesc (l : List LimitUsageRec) : List LimitUsageRec :=
  l.foldl (fun acc x => insertByPctDesc x acc) []

/-- `finalizeAnalysis` of the source: converts the limit map into the
percentage-annotated list, sorts it descending by percentage, and derives
the database-call count. -/
def finalizeAnalysis (analysis : LogAnalysis) (limitMap : List (String × Nat × Nat)) :
    LogAnalysis :=
  let pushed := analysis.limits ++ limitMap.map (fun e =>
    ({ name := e.1, used := e.2.1, total := e.2.2
       percentage := if 0 < e.2.2 then roundPct e.2.1 e.2.2 else 0 } : LimitUsageRec))
  { analysis with
    limits := stableSortByPctDesc pushed
    summary := { analysis.summary with
      numDatabaseCalls := analysis.summary.numSoqlQueries + analysis.summary.numDmlStatements } }

/-- `analyzeApexLog` on an already-split line list. -/
def analyzeApexLogLines (lines : List String) : LogAnalysis :=
  let finalSt := analyzeLoop lines lines.length 0 initAnalyzerState
  finalizeAnalysis finalSt.analysis finalSt.limitMap

/-- `analyzeApexLog` of the source: split on newlines, run the driver
loop, finalize. -/
def analyzeApexLog (log : String) : LogAnalysis :=
  analyzeApexLogLines (jsSplitChar '\n' log)

/-- Character class kept by the sanitisation
`replace(/[^a-zA-Z0-9_\.]/g, '')` of `filterLogsForMethod`. -/
def isIdentChar (c : Char) : Bool :=
  ('a' ≤ c && c ≤ 'z') || ('A' ≤ c && c ≤ 'Z') || ('0' ≤ c && c ≤ '9') || c = '_' || c = '.'

/-- The sanitisation of `filterLogsForMethod`: drop every character that
is not a letter, digit, underscore or dot. -/
def jsSanitize (s : String) : String :=
  ⟨s.data.filter isIdentChar⟩

/-- Local state of the extraction loop of `filterLogsForMethod`. -/
structure ExtractState where
  inSetupMethod : Bool
  inTestMethod : Bool
  setupMethodSections : List String
  testMethodSections : List String
  currentSection : List String
  lastCodeUnitStarted : String
deriving DecidableEq, Repr

/-- Initial extraction state. -/
def initExtractState : ExtractState where
  inSetupMethod := false
  inTestMethod := false
  setupMethodSections := []
  testMethodSections := []
  currentSection := []
  lastCodeUnitStarted := ""

/-- The `if (currentSection.length > 0) { … }` flush of
`filterLogsForMethod`: append the buffered lines to the output list of
whichever section is open (dropping them when neither is) and clear the
buffer. -/
def flushCurrent (st : ExtractState) : ExtractState :=
  if st.currentSection.isEmpty then st
  else if st.inSetupMethod then
    { st with setupMethodSections := st.setupMethodSections ++ st.currentSection
              currentSection := [] }
  else if st.inTestMethod then
    { st with testMethodSections := st.testMethodSections ++ st.currentSection
              currentSection := [] }
  else { st with currentSection := [] }

/-- One iteration of the extraction loop of `filterLogsForMethod`.
`setupTruthy` is the JavaScript truthiness of the original
`setupMethodName` argument (used by the `CODE_UNIT_FINISHED` branch, which
tests the unsanitised value); the start branch tests the truthiness of the
sanitised `safeSetupMethodName` instead, exactly as the source does. -/
def extractStep (safeClassName safeMethodName safeSetupMethodName : String)
    (setupTruthy : Bool) (st : ExtractState) (line : String) : ExtractState :=
  let st0 := if jsIncludes line "CODE_UNIT_STARTED" then
               { st with lastCodeUnitStarted := line }
             else st
  if jsIncludes line "CODE_UNIT_STARTED" && !safeSetupMethodName.isEmpty
      && jsIncludes line (safeClassName ++ "." ++ safeSetupMethodName) then
    let f := flushCurrent st0
    { f with inSetupMethod := true, inTestMethod := false, currentSection := [line] }
  else if jsIncludes line "CODE_UNIT_STARTED"
      && jsIncludes line (safeClassName ++ "." ++ safeMethodName) then
    let f := flushCurrent st0
    { f with inTestMethod := true, inSetupMethod := false, currentSection := [line] }
  else if jsIncludes line "CODE_UNIT_FINISHED" && st0.inSetupMethod && setupTruthy
      && jsIncludes line (safeClassName ++ "." ++ safeSetupMethodName) then
    { st0 with setupMethodSections := st0.setupMethodSections ++ st0.currentSection ++ [line]
               currentSection := []
               inSetupMethod := false }
  else if jsIncludes line "CODE_UNIT_FINISHED" && st0.inTestMethod
      && jsIncludes line (safeClassName ++ "." ++ safeMethodName) then
    { st0 with testMethodSections := st0.testMethodSections ++ st0.currentSection ++ [line]
               currentSection := []
               inTestMethod := false }
  else if st0.inSetupMethod || st0.inTestMethod then
    { st0 with currentSection := st0.currentSection ++ [line] }
  else st0

/-- `filterLogsForMethod` of the source (`extension.ts`).  The missing
`setupMethodName` argument is modelled as `none`.  The `typeof` validation
branch of the source is unreachable in this typed embedding (all three
names are strings by type) and is therefore omitted. -/
def filterLogsForMethod (debugLog className methodName : String)
    (setupMethodName : Option String) : String :=
  if debugLog = "" || debugLog = "No logs found" then "No logs available for this method."
  else
    let safeClassName := jsSanitize className
    let safeMethodName := jsSanitize methodName
    let setupTruthy := match setupMethodName with
      | some s => !(s = "")
      | none => false
    let safeSetupMethodName := match setupMethodName with
      | some s => if s = "" then "" else jsSanitize s
      | none => ""
    if 1024 * 1024 < jsLength debugLog then
      "Log is too large to display. Please check the raw logs on Salesforce."
    else
      let logLines := jsSplitChar '\n' debugLog
      if 50000 < logLines.length then
        "Log is too large to display. Please check the raw logs on Salesforce."
      else
        let finalSt := logLines.foldl
          (extractStep safeClassName safeMethodName safeSetupMethodName setupTruthy)
          initExtractState
        let st := flushCurrent finalSt
        let setupBlock :=
          if st.setupMethodSections.isEmpty then []
          else
            ["==== TEST SETUP METHOD ====",
             safeClassName ++ "."
               ++ (if safeSetupMethodName.isEmpty then "Unknown Setup Method"
                   else safeSetupMethodName),
             ""] ++ st.setupMethodSections ++ [""]
        let testBlock :=
          if st.testMethodSections.isEmpty then []
          else
            ["==== TEST METHOD ====", safeClassName ++ "." ++ safeMethodName, ""]
              ++ st.testMethodSections
        let filtered0 := setupBlock ++ testBlock
        let filtered1 :=
          if filtered0.isEmpty then
            let relevantLines := logLines.filter (fun line =>
              jsIncludes line (safeClassName ++ "." ++ safeMethodName)
                || (!safeSetupMethodName.isEmpty
                      && jsIncludes line (safeClassName ++ "." ++ safeSetupMethodName)))
            ["No specific method boundaries found for "
               ++ safeClassName ++ "." ++ safeMethodName,
             "Showing any log entries containing references to this method:",
             ""]
              ++ (if relevantLines.isEmpty then
                    ["No references to " ++ safeClassName ++ "." ++ safeMethodName
                       ++ " found in the logs."]
                  else relevantLines)
          else filtered0
        String.intercalate "\n" filtered1

/-!  Specification-side vocabulary used by the theorems below. -/

/-- Newline join of a list of strings (used to state stack-trace and
concrete-log properties declaratively). -/
def nlJoin : List String → String
  | [] => ""
  | [x] => x
  | x :: y :: rest => x ++ "\n" ++ nlJoin (y :: rest)

/-- The non-blank trimmed lines of a lookahead window up to the first
stricter new-event header — the declarative description of the stack-trace
content. -/
def stPieces (w : List String) : List String :=
  (w.takeWhile (fun l => !newEventHeader l)).filterMap
    (fun l => if (jsTrim l).isEmpty then none else some (jsTrim l))

/-- The limit sample parsed from one cumulative-limit field, if any. -/
def sampleOf (part : String) : Option (String × Nat × Nat) :=
  let limitPart := jsTrim part
  if limitPart.isEmpty then none
  else (limitMatch limitPart).map (fun r => (jsTrim r.1, r.2.1, r.2.2))

/-- The high-usage timeline entry generated by one cumulative-limit field,
if that field parses to a sample whose own used/total ratio exceeds one
half. -/
def highEntryOf (relativeTimeMs : Option ℤ) (part : String) : Option TimelineEventRec :=
  (sampleOf part).bind (fun s =>
    if highUsage s.2.1 s.2.2 then
      some ⟨"High Limit Usage", relativeTimeMs,
        some (s.1 ++ ": " ++ toString s.2.1 ++ " of " ++ toString s.2.2
          ++ " (" ++ pctText s.2.1 s.2.2 ++ "%)")⟩
    else none)

/-- The governor-limit entry generated by one cumulative-limit field. -/
def govEntryOf (part : String) : Option GovernorLimitRec :=
  (sampleOf part).map (fun s => ⟨s.1, s.2.1, s.2.2⟩)

/-- Lookup in the association-list model of the limit map. -/
def entryLookup : List (String × Nat × Nat) → String → Option (Nat × Nat)
  | [], _ => none
  | e :: rest, k => if e.1 = k then some e.2 else entryLookup rest k

/-- The disjunction of all tag substrings recognised by the dispatcher of
`analyzeApexLog`, in its order. -/
def recognizedTag (tag : String) : Bool :=
  jsIncludes tag "EXECUTION_STARTED" || jsIncludes tag "EXECUTION_FINISHED"
    || jsIncludes tag "SOQL_EXECUTE_BEGIN" || jsIncludes tag "DML_BEGIN"
    || jsIncludes tag "USER_DEBUG" || jsIncludes tag "HEAP_ALLOCATE"
    || jsIncludes tag "EXCEPTION_THROWN" || jsIncludes tag "FATAL_ERROR"
    || jsIncludes tag "SYSTEM_METHOD_ENTRY" || jsIncludes tag "SYSTEM_METHOD_EXIT"
    || jsIncludes tag "LIMIT_USAGE_FOR_NS" || jsIncludes tag "CUMULATIVE_LIMIT_USAGE"
    || jsIncludes tag "CUMULATIVE_PROFILING" || jsIncludes tag "CODE_COVERAGE"
    || jsIncludes tag "SYSTEM_MODE_ENTER" || jsIncludes tag "SYSTEM_MODE_EXIT"
    || jsIncludes tag "CONSTRUCTOR_ENTRY" || jsIncludes tag "CONSTRUCTOR_EXIT"
    || jsIncludes tag "METHOD_ENTRY" || jsIncludes tag "METHOD_EXIT"
    || jsIncludes tag "SOQL_EXECUTE_END" || jsIncludes tag "DML_END"

/-- C10: on an empty raw log or the literal `No logs found`, the extractor
returns the fixed advisory string, whatever the class, method and setup
names are, and without scanning any lines. -/
theorem claim_C10 (className methodName : String) (setupMethodName : Option String) :
    filterLogsForMethod "" className methodName setupMethodName
        = "No logs available for this method." ∧
    filterLogsForMethod "No logs found" className methodName setupMethodName
        = "No logs available for this method." :=
  ⟨rfl, rfl⟩

/-- C3: when the raw log exceeds the 1 MB size cap or the 50000 line cap,
the extractor returns the fixed advisory string — for every log content
and every choice of names, so no line of the input can affect the
result. -/
theorem claim_C3 (debugLog className methodName : String) (setupMethodName : Option String)
    (h : 1024 * 1024 < jsLength debugLog ∨ 50000 < (jsSplitChar '\n' debugLog).length) :
    filterLogsForMethod debugLog className methodName setupMethodName
      = "Log is too large to display. Please check the raw logs on Salesforce." := by
  have hne : ¬(debugLog = "" ∨ debugLog = "No logs found") := by
    rintro (rfl | rfl)
    · rcases h with h | h
      · have : jsLength "" = 0 := rfl
        omega
      · have : (jsSplitChar '\n' "").length = 1 := rfl
        omega
    · rcases h with h | h
      · have : jsLength "No logs found" = 13 := rfl
        omega
      · have : (jsSplitChar '\n' "No logs found").length = 1 := rfl
        omega
  unfold filterLogsForMethod
  rw [if_neg]
  · dsimp only
    split
    · rfl
    · rw [if_pos]
      rcases h with h | h
      · omega
      · exact h
  · simpa using hne

/-- An oversized log used to witness C3: 1048577 copies of `a`. -/
def bigLogC3 : String :=
  ⟨List.replicate 1048577 'a'⟩

theorem claim_C3_witness :
    filterLogsForMethod bigLogC3 "Cls" "method" none
      = "Log is too large to display. Please check the raw logs on Salesforce." :=
  claim_C3 bigLogC3 "Cls" "method" none
    (Or.inl (by
      rw [show jsLength bigLogC3 = (List.replicate 1048577 'a').length from rfl,
        List.length_replicate]
      norm_num))

/-- C1: (a) the analyzer returns a value on every string input, (b) the
extractor returns a value on all inputs, and (c) the one per-line failure
the source can raise — `processUserDebug` reading the missing third field
of a `USER_DEBUG` line with exactly two fields — is caught by the driver,
which leaves the state unchanged apart from the already-performed cursor
assignment and continues with the next line. -/
theorem claim_C1 :
    (∀ log : String, ∃ a, analyzeApexLog log = a) ∧
    (∀ (debugLog className methodName : String) (setupMethodName : Option String),
      ∃ r, filterLogsForMethod debugLog className methodName setupMethodName = r) ∧
    (∀ (lines : List String) (i : Nat) (st : AnalyzerState),
      (jsTrim (lines.getD i "")).isEmpty = false →
      isPartOfPreviousDebugLine st.lastDebugLineIndex (lines.getD i "") = false →
      (jsSplitChar '|' (lines.getD i "")).length = 2 →
      jsIncludes ((jsSplitChar '|' (lines.getD i "")).getD 1 "") "USER_DEBUG" = true →
      jsIncludes ((jsSplitChar '|' (lines.getD i "")).getD 1 "") "EXECUTION_STARTED" = false →
      jsIncludes ((jsSplitChar '|' (lines.getD i "")).getD 1 "") "EXECUTION_FINISHED" = false →
      jsIncludes ((jsSplitChar '|' (lines.getD i "")).getD 1 "") "SOQL_EXECUTE_BEGIN" = false →
      jsIncludes ((jsSplitChar '|' (lines.getD i "")).getD 1 "") "DML_BEGIN" = false →
      analyzeStep lines i st = ({ st with lastDebugLineIndex := (i : Int) }, i + 1)) := by
  refine ⟨fun log => ⟨_, rfl⟩, fun d c m s => ⟨_, rfl⟩, ?_⟩
  intro lines i st h1 h2 h3 h4 h5 h6 h7 h8
  unfold analyzeStep
  simp_all [processUserDebug]

theorem claim_C1_witness :
    analyzeStep ["1:2:3|USER_DEBUG"] 0 initAnalyzerState
      = ({ initAnalyzerState with lastDebugLineIndex := (0 : Int) }, 1) :=
  claim_C1.2.2 ["1:2:3|USER_DEBUG"] 0 initAnalyzerState
    (by decide) (by decide) (by decide) (by decide)
    (by decide) (by decide) (by decide) (by decide)

/-- C9: a timestamped line with fewer than two pipe fields, or one whose
tag contains no recognised substring, is skipped without touching the
state — in particular without clearing the open-debug-capture cursor; as a
consequence, on the concrete log whose `USER_DEBUG` line is followed by
such a skipped line and then by a non-timestamped line, the latter is
still appended to the debug statement's message. -/
theorem claim_C9 :
    (∀ (lines : List String) (i : Nat) (st : AnalyzerState),
      (jsTrim (lines.getD i "")).isEmpty = false →
      tsLead (lines.getD i "") = true →
      (jsSplitChar '|' (lines.getD i "")).length < 2 →
      analyzeStep lines i st = (st, i + 1)) ∧
    (∀ (lines : List String) (i : Nat) (st : AnalyzerState),
      (jsTrim (lines.getD i "")).isEmpty = false →
      tsLead (lines.getD i "") = true →
      2 ≤ (jsSplitChar '|' (lines.getD i "")).length →
      recognizedTag ((jsSplitChar '|' (lines.getD i "")).getD 1 "") = false →
      analyzeStep lines i st = (st, i + 1)) ∧
    (analyzeApexLog ("1:2:3|USER_DEBUG|[1]|msg" ++ "\n" ++ "1:2:4" ++ "\n" ++ "hello")).debugLines
        = [⟨1, "msg" ++ "\n" ++ "hello", "1:2:3"⟩] ∧
    (analyzeApexLog ("1:2:3|USER_DEBUG|[1]|msg" ++ "\n" ++ "1:2:4|ZZZ|x" ++ "\n" ++ "hello")).debugLines
        = [⟨1, "msg" ++ "\n" ++ "hello", "1:2:3"⟩] := by
  refine ⟨?_, ?_, by decide, by decide⟩
  · intro lines i st h1 h2 h3
    unfold analyzeStep
    simp_all [isPartOfPreviousDebugLine]
  · intro lines i st h1 h2 h3 h4
    simp only [recognizedTag, Bool.or_eq_false_iff] at h4
    obtain ⟨⟨⟨⟨⟨⟨⟨⟨⟨⟨⟨⟨⟨⟨⟨⟨⟨⟨⟨⟨⟨g1, g2⟩, g3⟩, g4⟩, g5⟩, g6⟩, g7⟩, g8⟩, g9⟩, g10⟩,
      g11⟩, g12⟩, g13⟩, g14⟩, g15⟩, g16⟩, g17⟩, g18⟩, g19⟩, g20⟩, g21⟩, g22⟩ := h4
    unfold analyzeStep
    simp_all [isPartOfPreviousDebugLine]

theorem claim_C9_witness :
    analyzeStep ["1:2:4|ZZZ|x"] 0 initAnalyzerState = (initAnalyzerState, 1) :=
  claim_C9.2.1 ["1:2:4|ZZZ|x"] 0 initAnalyzerState
    (by decide) (by decide) (by decide) (by decide)

/-- Unrolling equation of the fuelled driver loop. -/
lemma analyzeLoop_succ (lines : List String) (fuel i : Nat) (st : AnalyzerState) :
    analyzeLoop lines (fuel + 1) i st =
      if i < lines.length then
        analyzeLoop lines fuel (analyzeStep lines i st).2 (analyzeStep lines i st).1
      else st := by
  rw [analyzeLoop]

/-- Finalization does not touch the captured debug statements. -/
lemma debugLines_finalizeAnalysis (a : LogAnalysis) (m : List (String × Nat × Nat)) :
    (finalizeAnalysis a m).debugLines = a.debugLines := rfl

/-- The `USER_DEBUG` event line of the C6 scenario: timestamped line with a
`[12]` source reference and a debug text carrying both a literal `DEBUG|`
marker and a literal backslash-`n` escape. -/
def c6EventLine : String := "10:20:30.1 (1)|USER_DEBUG|[12]|DEBUG|first\\nline"

set_option maxHeartbeats 1000000 in
/-- C6: a user-debug event line followed by one non-blank line and one
blank line, neither timestamped, yields exactly one debug statement whose
message is the original debug text (escapes expanded, `DEBUG|` stripped),
a newline, the continuation text, a newline, and the empty string.  Stated
for an arbitrary continuation line over the split line list, and
end-to-end on the raw string for a concrete continuation. -/
theorem claim_C6 (cont : String) (hTs : tsLead cont = false)
    (hNb : (jsTrim cont).isEmpty = false) :
    (analyzeApexLogLines [c6EventLine, cont, ""]).debugLines
        = [⟨12, "first\nline" ++ "\n" ++ cont ++ "\n" ++ "", "10:20:30.1 (1)"⟩] ∧
    (analyzeApexLog (c6EventLine ++ "\n" ++ "second part" ++ "\n")).debugLines
        = [⟨12, "first\nline" ++ "\n" ++ "second part" ++ "\n" ++ "", "10:20:30.1 (1)"⟩] := by
  refine ⟨?_, by decide⟩
  have habs : absorbRun [cont, ""] "first\nline"
      = (2, "first\nline" ++ "\n" ++ cont ++ "\n" ++ "") := by
    rw [absorbRun, hTs]
    rfl
  have hm : jsStripDebugTag (jsExpandNewlines (jsTrim
      ("|".intercalate (List.drop 3 (jsSplitChar '|' c6EventLine))))) = "first\nline" := by
    decide
  have h2 : (analyzeStep [c6EventLine, cont, ""] 0 initAnalyzerState).2 = 3 := by
    unfold analyzeStep processUserDebug
    simp +decide [hm, habs]
  have h1 : (analyzeStep [c6EventLine, cont, ""] 0 initAnalyzerState).1.analysis.debugLines
      = [⟨12, "first\nline" ++ "\n" ++ cont ++ "\n" ++ "", "10:20:30.1 (1)"⟩] := by
    unfold analyzeStep processUserDebug
    simp +decide [hm, habs, initAnalyzerState, initializeAnalysis]
  show (analyzeApexLogLines [c6EventLine, cont, ""]).debugLines = _
  unfold analyzeApexLogLines
  rw [show ([c6EventLine, cont, ""] : List String).length = 2 + 1 from rfl]
  rw [analyzeLoop_succ, if_pos (by norm_num), h2]
  rw [show (2 : Nat) = 1 + 1 from rfl]
  rw [analyzeLoop_succ, if_neg (by norm_num)]
  rw [debugLines_finalizeAnalysis, h1]

theorem claim_C6_witness :
    (analyzeApexLogLines [c6EventLine, "second part", ""]).debugLines
      = [⟨12, "first\nline" ++ "\n" ++ "second part" ++ "\n" ++ "", "10:20:30.1 (1)"⟩] :=
  (claim_C6 "second part" (by decide) (by decide)).1

/-- The absorption loop of `processUserDebug` consumes exactly the longest
run of following lines lacking a timestamp and appends each of them, as
is, behind a newline. -/
lemma absorbRun_eq (rest : List String) (msg : String) :
    absorbRun rest msg =
      ((rest.takeWhile (fun l => !tsLead l)).length,
       (rest.takeWhile (fun l => !tsLead l)).foldl (fun a l => a ++ "\n" ++ l) msg) := by
  induction rest generalizing msg with
  | nil => rfl
  | cons x xs ih =>
    by_cases hx : tsLead x
    · simp [absorbRun, hx, List.takeWhile_cons]
    · simp [absorbRun, hx, List.takeWhile_cons, ih]

/-- C7 corrected: for every user-debug event, the escape expansion and the
`DEBUG|` strip are applied to the original event-line debug text only;
the absorbed continuation lines are appended verbatim (no backslash-n
expansion), and the late continuation path strips only a leading `DEBUG|`
from the appended line. -/
theorem claim_C7 :
    (∀ (a : LogAnalysis) (lines : List String) (i : Nat) (parts : List String)
        (rel : Option ℤ) (ts : String), 3 ≤ parts.length →
      (processUserDebug a lines i parts rel ts).toOption.map
          (fun p => p.1.debugLines.map (fun d => d.message))
        = some (a.debugLines.map (fun d => d.message) ++
            [((lines.drop (i + 1)).takeWhile (fun l => !tsLead l)).foldl
               (fun m l => m ++ "\n" ++ l)
               (jsStripDebugTag (jsExpandNewlines
                 (jsTrim (String.intercalate "|" (parts.drop 3)))))])) ∧
    (∀ (a : LogAnalysis) (line : String) (last : DebugLineRec),
      a.debugLines.getLast? = some last →
      (processContinuedDebugLine a line).debugLines.getLast?
        = some { last with message := last.message ++ "\n" ++ jsStripDebugTag line }) := by
  constructor
  · intro a lines i parts rel ts h
    unfold processUserDebug
    rw [if_neg (by omega)]
    simp only [absorbRun_eq]
    simp
    exact ⟨_, ⟨_, rfl⟩, by simp⟩
  · intro a line last h
    unfold processContinuedDebugLine
    rw [h]
    simp

/-- Log used to refute C7 as stated: the continuation line carries a
literal backslash-`n` that survives into the stored message. -/
def c7Log : String := "1:2:3|USER_DEBUG|[1]|msg" ++ "\n" ++ "cont\\nued"

theorem claim_C7_counterexample :
    (analyzeApexLog c7Log).debugLines.map (fun d => d.message)
        = ["msg" ++ "\n" ++ "cont\\nued"] ∧
    jsIncludes ("msg" ++ "\n" ++ "cont\\nued") "\\n" = true := by
  decide

theorem claim_C7_witness :
    (processUserDebug initializeAnalysis ["evt", "tail line"] 0
        ["t", "USER_DEBUG", "[2]", "DEBUG|hi\\nthere"] none "t").toOption.map
        (fun p => p.1.debugLines.map (fun d => d.message))
      = some ["hi\nthere" ++ "\n" ++ "tail line"] := by
  rw [claim_C7.1 initializeAnalysis ["evt", "tail line"] 0
    ["t", "USER_DEBUG", "[2]", "DEBUG|hi\\nthere"] none "t" (by norm_num)]
  decide

/-- A nonempty string stays nonempty after appending on the right. -/
lemma isEmpty_append_left (x y : String) (h : x.isEmpty = false) :
    (x ++ y).isEmpty = false := by
  cases hxy : (x ++ y).isEmpty
  · rfl
  · exfalso
    have h1 : x ++ y = "" := (String.isEmpty_iff (x ++ y)).mp hxy
    have h2 : x.data ++ y.data = [] := by
      rw [← String.data_append, h1]
    have h3 : x = "" := String.ext (List.append_eq_nil.mp h2).1
    rw [h3] at h
    exact absurd h (by decide)

/-- The accumulator form of the stack-trace join, rephrased as `nlJoin`
when the accumulator and all pieces are nonempty. -/
lemma foldl_join_of_ne (ps : List String) (a : String) (ha : a.isEmpty = false)
    (hps : ∀ p ∈ ps, p.isEmpty = false) :
    ps.foldl (fun x p => if x.isEmpty then p else x ++ "\n" ++ p) a = nlJoin (a :: ps) := by
  induction ps generalizing a with
  | nil => rfl
  | cons p ps ih =>
    have hp : p.isEmpty = false := hps p (by simp)
    have hstep : (a ++ "\n" ++ p).isEmpty = false :=
      isEmpty_append_left _ _ (isEmpty_append_left _ _ ha)
    rw [List.foldl_cons]
    rw [if_neg (by simp [ha])]
    rw [ih _ hstep (fun q hq => hps q (by simp [hq]))]
    cases ps with
    | nil => rfl
    | cons q qs => simp [nlJoin, String.append_assoc]

/-- Every stack-trace piece is a nonempty trimmed line. -/
lemma stPieces_ne (w : List String) : ∀ p ∈ stPieces w, p.isEmpty = false := by
  intro p hp
  simp only [stPieces, List.mem_filterMap] at hp
  obtain ⟨l, _, hl⟩ := hp
  by_cases he : (jsTrim l).isEmpty
  · rw [if_pos he] at hl
    cases hl
  · rw [if_neg he] at hl
    cases hl
    simpa using he

/-- The stack-trace loop equals the `foldl` of the pieces of its
window. -/
lemma stackScanList_go (w : List String) (acc : String) :
    stackScanList w acc
      = (stPieces w).foldl (fun x p => if x.isEmpty then p else x ++ "\n" ++ p) acc := by
  induction w generalizing acc with
  | nil => rfl
  | cons n rest ih =>
    by_cases hH : newEventHeader n
    · simp [stackScanList, hH, stPieces, List.takeWhile_cons]
    · by_cases hT : (jsTrim n).isEmpty
      · simp [stackScanList, hH, hT, stPieces, List.takeWhile_cons, List.filterMap_cons, ih]
      · simp [stackScanList, hH, hT, stPieces, List.takeWhile_cons, List.filterMap_cons, ih]

/-- The stack-trace loop started on an empty accumulator produces the
newline join of its window's non-blank trimmed pieces. -/
lemma stackScanList_nlJoin (w : List String) :
    stackScanList w "" = nlJoin (stPieces w) := by
  rw [stackScanList_go]
  cases hps : stPieces w with
  | nil => rfl
  | cons p ps =>
    rw [List.foldl_cons, if_pos (by decide)]
    exact foldl_join_of_ne ps p (stPieces_ne w p (by rw [hps]; simp))
      (fun q hq => stPieces_ne w q (by rw [hps]; simp [hq]))

/-- C5 amended: on every exception or fatal-error event the recorded stack
trace is the newline join of the non-blank trimmed lines of the window of
the next 29 lines (loop indices `i+1 … i+29`), cut at the first line
matching the stricter timestamped-header pattern; `none` is recorded when
that join is empty. -/
theorem claim_C5 (a : LogAnalysis) (parts : List String) (rel : Option ℤ)
    (lines : List String) (i : Nat) :
    (processException a parts rel lines i).errors.map (fun e => e.stackTrace)
      = a.errors.map (fun e => e.stackTrace) ++
          [if (nlJoin (stPieces ((lines.drop (i + 1)).take 29))).isEmpty then none
           else some (nlJoin (stPieces ((lines.drop (i + 1)).take 29)))] := by
  unfold processException
  rw [stackScanList_nlJoin]
  simp

/-- Log used to refute C5 as stated: the 30th line after the exception
line (`Z`, non-blank, not a header, preceded by no header) is inside the
claimed 30-line window but is not collected. -/
def c5Log : String :=
  nlJoin (["0:0:0|EXCEPTION_THROWN|boom"] ++ List.replicate 29 "y" ++ ["Z"])

set_option maxRecDepth 100000 in
set_option maxHeartbeats 1000000 in
theorem claim_C5_counterexample :
    (analyzeApexLog c5Log).errors.map (fun e => e.stackTrace)
        = [some (nlJoin (List.replicate 29 "y"))] ∧
    jsIncludes (nlJoin (List.replicate 29 "y")) "Z" = false ∧
    newEventHeader "Z" = false ∧
    (jsTrim "Z").isEmpty = false ∧
    (jsSplitChar '\n' c5Log).getD 30 "" = "Z" ∧
    (jsSplitChar '\n' c5Log).length = 31 := by
  decide

/-- C4 amended: on a coverage event each of the three extractions updates
only its own fields of an existing summary; when no summary exists yet,
the first successful extraction creates it, the percentage-first and
uncovered-first paths filling the other fields with zero/empty defaults
while the ratio-first path derives the percentage as
`round(covered/total*100)` instead of zero. -/
theorem claim_C4 (a : LogAnalysis) (parts : List String) :
    (processCodeCoverage a parts).hasCoverageInfo = true ∧
    (a.codeCoverage = none →
      (processCodeCoverage a parts).codeCoverage =
        (match pctScan (String.intercalate "|" (parts.drop 2)).data,
               ratioScan (String.intercalate "|" (parts.drop 2)).data,
               uncovScan (String.intercalate "|" (parts.drop 2)).data with
         | none, none, none => none
         | p, r, u =>
           some ⟨(match p with
                  | some n => some n
                  | none =>
                    match r with
                    | some ct => jsRatioPct ct.1 ct.2
                    | none => some 0),
                 (match r with | some ct => ct.1 | none => 0),
                 (match r with | some ct => ct.2 | none => 0),
                 (match u with | some cap => uncovListOf cap | none => [])⟩)) ∧
    (∀ cc, a.codeCoverage = some cc →
      (processCodeCoverage a parts).codeCoverage =
        some ⟨(match pctScan (String.intercalate "|" (parts.drop 2)).data with
               | some n => some n
               | none => cc.coveragePercentage),
              (match ratioScan (String.intercalate "|" (parts.drop 2)).data with
               | some ct => ct.1
               | none => cc.linesCovered),
              (match ratioScan (String.intercalate "|" (parts.drop 2)).data with
               | some ct => ct.2
               | none => cc.linesTotal),
              (match uncovScan (String.intercalate "|" (parts.drop 2)).data with
               | some cap => uncovListOf cap
               | none => cc.uncoveredLines)⟩) := by
  refine ⟨?_, ?_, ?_⟩
  · unfold processCodeCoverage
    cases hcc : a.codeCoverage <;>
      cases hp : pctScan (String.intercalate "|" (parts.drop 2)).data <;>
        cases hr : ratioScan (String.intercalate "|" (parts.drop 2)).data <;>
          cases hu : uncovScan (String.intercalate "|" (parts.drop 2)).data <;>
            simp [hcc, hp, hr, hu]
  · intro h
    unfold processCodeCoverage
    cases hp : pctScan (String.intercalate "|" (parts.drop 2)).data <;>
      cases hr : ratioScan (String.intercalate "|" (parts.drop 2)).data <;>
        cases hu : uncovScan (String.intercalate "|" (parts.drop 2)).data <;>
          simp [hp, hr, hu, h]
  · intro cc h
    unfold processCodeCoverage
    cases hp : pctScan (String.intercalate "|" (parts.drop 2)).data <;>
      cases hr : ratioScan (String.intercalate "|" (parts.drop 2)).data <;>
        cases hu : uncovScan (String.intercalate "|" (parts.drop 2)).data <;>
          simp [hp, hr, hu, h]

/-- Log used to refute C4 as stated: the ratio extraction succeeds first
and creates the summary with percentage 75, not the zero default. -/
def c4Log : String := "1:2:3|CODE_COVERAGE|3/4"

theorem claim_C4_counterexample :
    (analyzeApexLog c4Log).codeCoverage = some ⟨some 75, 3, 4, []⟩ ∧
    (analyzeApexLog c4Log).codeCoverage ≠ some ⟨some 0, 3, 4, []⟩ := by
  decide

theorem claim_C4_witness :
    (processCodeCoverage initializeAnalysis ["1:2:3", "CODE_COVERAGE", "3/4"]).codeCoverage
      = some ⟨some 75, 3, 4, []⟩ := by
  rw [(claim_C4 initializeAnalysis ["1:2:3", "CODE_COVERAGE", "3/4"]).2.1 rfl]
  decide

/-- One extraction step cannot leave both section flags set. -/
lemma extractStep_excl (sc sm ss : String) (stt : Bool) (st : ExtractState) (line : String)
    (h : (st.inSetupMethod && st.inTestMethod) = false) :
    ((extractStep sc sm ss stt st line).inSetupMethod
      && (extractStep sc sm ss stt st line).inTestMethod) = false := by
  unfold extractStep
  dsimp only
  split_ifs <;> simp_all

/-- The whole extraction fold preserves section-flag exclusivity. -/
lemma foldl_extractStep_excl (sc sm ss : String) (stt : Bool) :
    ∀ (lines : List String) (st : ExtractState),
      (st.inSetupMethod && st.inTestMethod) = false →
      ((lines.foldl (extractStep sc sm ss stt) st).inSetupMethod
        && (lines.foldl (extractStep sc sm ss stt) st).inTestMethod) = false := by
  intro lines
  induction lines with
  | nil => exact fun st h => h
  | cons l ls ih => exact fun st h => ih _ (extractStep_excl sc sm ss stt st l h)

/-- C8: (1) after any prefix of the extraction loop at most one of the two
section flags is set; (2) a setup-start marker arriving while the test
section is open flushes the buffered test lines into the test output
before the setup section becomes active; (3) symmetrically, a test-start
marker arriving while the setup section is open flushes the buffer into
the setup output before the test section becomes active. -/
theorem claim_C8 :
    (∀ (sc sm ss : String) (stt : Bool) (lines : List String),
      ((lines.foldl (extractStep sc sm ss stt) initExtractState).inSetupMethod
        && (lines.foldl (extractStep sc sm ss stt) initExtractState).inTestMethod) = false) ∧
    (∀ (sc sm ss : String) (stt : Bool) (st : ExtractState) (line : String),
      st.inSetupMethod = false → st.inTestMethod = true →
      ss.isEmpty = false →
      jsIncludes line "CODE_UNIT_STARTED" = true →
      jsIncludes line (sc ++ "." ++ ss) = true →
      extractStep sc sm ss stt st line =
        { st with lastCodeUnitStarted := line
                  inSetupMethod := true
                  inTestMethod := false
                  testMethodSections := st.testMethodSections ++ st.currentSection
                  currentSection := [line] }) ∧
    (∀ (sc sm ss : String) (stt : Bool) (st : ExtractState) (line : String),
      st.inSetupMethod = true →
      (ss.isEmpty = true ∨ jsIncludes line (sc ++ "." ++ ss) = false) →
      jsIncludes line "CODE_UNIT_STARTED" = true →
      jsIncludes line (sc ++ "." ++ sm) = true →
      extractStep sc sm ss stt st line =
        { st with lastCodeUnitStarted := line
                  inTestMethod := true
                  inSetupMethod := false
                  setupMethodSections := st.setupMethodSections ++ st.currentSection
                  currentSection := [line] }) := by
  refine ⟨?_, ?_, ?_⟩
  · intro sc sm ss stt lines
    exact foldl_extractStep_excl sc sm ss stt lines initExtractState rfl
  · intro sc sm ss stt st line h1 h2 h3 h4 h5
    unfold extractStep flushCurrent
    rcases hcs : st.currentSection with _ | ⟨c, cs⟩ <;>
      simp_all
  · intro sc sm ss stt st line h1 h2 h3 h4
    unfold extractStep flushCurrent
    rcases h2 with h2 | h2 <;>
      rcases hcs : st.currentSection with _ | ⟨c, cs⟩ <;>
        simp_all

theorem claim_C8_witness :
    extractStep "Cls" "m" "setup" true
        ⟨false, true, [], ["t1"], ["cur"], ""⟩ "X|CODE_UNIT_STARTED|Cls.setup"
      = ⟨true, false, [], ["t1", "cur"],
         ["X|CODE_UNIT_STARTED|Cls.setup"], "X|CODE_UNIT_STARTED|Cls.setup"⟩ := by
  have h := claim_C8.2.1 "Cls" "m" "setup" true ⟨false, true, [], ["t1"], ["cur"], ""⟩
    "X|CODE_UNIT_STARTED|Cls.setup" rfl rfl (by decide) (by decide) (by decide)
  rw [h]
  decide

/-- Keys of the map after a `set`: unchanged when the key was present,
appended otherwise. -/
lemma setEntry_keys (m : List (String × Nat × Nat)) (k : String) (v : Nat × Nat) :
    (setEntry m k v).map Prod.fst =
      if k ∈ m.map Prod.fst then m.map Prod.fst else m.map Prod.fst ++ [k] := by
  induction m with
  | nil => simp [setEntry]
  | cons e rest ih =>
    by_cases he : e.1 = k
    · simp [setEntry, he]
    · by_cases hm : k ∈ rest.map Prod.fst <;>
        simp [setEntry, he, ih, hm, Ne.symm he]

/-- A `set` keeps the keys of the map free of duplicates. -/
lemma setEntry_keysNodup {m : List (String × Nat × Nat)} {k : String} {v : Nat × Nat}
    (h : (m.map Prod.fst).Nodup) : ((setEntry m k v).map Prod.fst).Nodup := by
  rw [setEntry_keys]
  split
  · exact h
  · rename_i hm
    simp [List.nodup_append, h, hm]

/-- One field of a `LIMIT_USAGE_FOR_NS` event keeps the keys
duplicate-free. -/
lemma limitFoldNS_keysNodup {m : List (String × Nat × Nat)} {part : String}
    (h : (m.map Prod.fst).Nodup) : ((limitFoldNS m part).map Prod.fst).Nodup := by
  unfold limitFoldNS
  dsimp only
  split
  · exact h
  · split
    · exact setEntry_keysNodup h
    · exact h

/-- A whole `LIMIT_USAGE_FOR_NS` event keeps the keys duplicate-free. -/
lemma processLimitUsage_keysNodup (m : List (String × Nat × Nat)) (parts : List String)
    (h : (m.map Prod.fst).Nodup) : ((processLimitUsage m parts).map Prod.fst).Nodup := by
  unfold processLimitUsage
  generalize parts.drop 2 = ps
  induction ps generalizing m with
  | nil => exact h
  | cons p ps ih => exact ih _ (limitFoldNS_keysNodup h)

/-- The cumulative-limit fold keeps the keys duplicate-free. -/
lemma foldl_cumulativeFold_nodup (rel : Option ℤ) (ps : List String) :
    ∀ (m : List (String × Nat × Nat)) (a : LogAnalysis),
      (m.map Prod.fst).Nodup →
      ((ps.foldl (cumulativeFold rel) (m, a)).1.map Prod.fst).Nodup := by
  induction ps with
  | nil => exact fun m a h => h
  | cons p ps ih =>
    intro m a h
    rw [List.foldl_cons]
    unfold cumulativeFold
    dsimp only
    split
    · exact ih m a h
    · split
      · exact ih m a h
      · split
        · exact ih _ _ (setEntry_keysNodup h)
        · exact ih _ _ (setEntry_keysNodup h)

/-- The cumulative-limit fold never touches the finalized-limit list. -/
lemma foldl_cumulativeFold_limits (rel : Option ℤ) (ps : List String) :
    ∀ (m : List (String × Nat × Nat)) (a : LogAnalysis),
      ((ps.foldl (cumulativeFold rel) (m, a)).2).limits = a.limits := by
  induction ps with
  | nil => exact fun m a => rfl
  | cons p ps ih =>
    intro m a
    rw [List.foldl_cons]
    unfold cumulativeFold
    dsimp only
    split
    · exact ih m a
    · split
      · exact ih m a
      · split
        · exact ih _ _
        · exact ih _ _

/-- `processCumulativeLimits` keeps the map keys duplicate-free. -/
lemma processCumulativeLimits_keysNodup (m : List (String × Nat × Nat)) (a : LogAnalysis)
    (parts : List String) (rel : Option ℤ) (h : (m.map Prod.fst).Nodup) :
    ((processCumulativeLimits m a parts rel).1.map Prod.fst).Nodup :=
  foldl_cumulativeFold_nodup rel (parts.drop 3) m a h

/-- `processCumulativeLimits` never touches the finalized-limit list. -/
@[simp] lemma processCumulativeLimits_limits (m : List (String × Nat × Nat)) (a : LogAnalysis)
    (parts : List String) (rel : Option ℤ) :
    ((processCumulativeLimits m a parts rel).2).limits = a.limits :=
  foldl_cumulativeFold_limits rel (parts.drop 3) m a

/-- No handler writes the finalized-limit list before `finalizeAnalysis`. -/
@[simp] lemma limits_processContinuedDebugLine (a : LogAnalysis) (line : String) :
    (processContinuedDebugLine a line).limits = a.limits := by
  unfold processContinuedDebugLine
  split <;> rfl

@[simp] lemma limits_processHeapAllocation (a : LogAnalysis) (line : String) :
    (processHeapAllocation a line).limits = a.limits := by
  unfold processHeapAllocation
  split
  · split <;> rfl
  · rfl

@[simp] lemma limits_processCodeCoverage (a : LogAnalysis) (parts : List String) :
    (processCodeCoverage a parts).limits = a.limits := by
  unfold processCodeCoverage
  cases hcc : a.codeCoverage <;>
    cases hp : pctScan (String.intercalate "|" (parts.drop 2)).data <;>
      cases hr : ratioScan (String.intercalate "|" (parts.drop 2)).data <;>
        cases hu : uncovScan (String.intercalate "|" (parts.drop 2)).data <;>
          simp [hcc, hp, hr, hu]

@[simp] lemma limits_processSoqlEnd (a : LogAnalysis) (parts : List String) (rel : Option ℤ) :
    (processSoqlEnd a parts rel).limits = a.limits := by
  unfold processSoqlEnd
  split <;> rfl

@[simp] lemma limits_processDmlEnd (a : LogAnalysis) (parts : List String) (rel : Option ℤ) :
    (processDmlEnd a parts rel).limits = a.limits := by
  unfold processDmlEnd
  split <;> rfl

/-- On success, `processUserDebug` leaves the finalized-limit list of the
analysis unchanged. -/
lemma processUserDebug_ok_limits {a : LogAnalysis} {lines : List String} {i : Nat}
    {parts : List String} {rel : Option ℤ} {ts : String} {p : LogAnalysis × Nat}
    (h : processUserDebug a lines i parts rel ts = .ok p) : p.1.limits = a.limits := by
  unfold processUserDebug at h
  split at h
  · cases h
  · dsimp only at h
    cases h
    rfl

/-- On success, `processUserDebug` returns an index no smaller than the
one of the event line. -/
lemma processUserDebug_ok_newIndex {a : LogAnalysis} {lines : List String} {i : Nat}
    {parts : List String} {rel : Option ℤ} {ts : String} {p : LogAnalysis × Nat}
    (h : processUserDebug a lines i parts rel ts = .ok p) : i ≤ p.2 := by
  unfold processUserDebug at h
  split at h
  · cases h
  · dsimp only at h
    cases h
    dsimp only
    split <;> omega

/-- Every driver step advances the line index by at least one, so
`lines.length` units of fuel always run the driver loop to completion
(see `analyzeLoop_fuel_irrelevant`). -/
lemma analyzeStep_next_ge (lines : List String) (i : Nat) (st : AnalyzerState) :
    i + 1 ≤ (analyzeStep lines i st).2 := by
  unfold analyzeStep
  dsimp only
  set L := lines.getD i "" with hLdef
  set P := jsSplitChar '|' L with hPdef
  set T := P.getD 1 "" with hTdef
  by_cases c1 : (jsTrim L).isEmpty = true
  · rw [if_pos c1]
  rw [if_neg c1]
  by_cases c2 : isPartOfPreviousDebugLine st.lastDebugLineIndex L = true
  · rw [if_pos c2]
  rw [if_neg c2]
  by_cases c3 : P.length < 2
  · rw [if_pos c3]
  rw [if_neg c3]
  by_cases c4 : jsIncludes T "EXECUTION_STARTED" = true
  · rw [if_pos c4]
  rw [if_neg c4]
  by_cases c5 : jsIncludes T "EXECUTION_FINISHED" = true
  · rw [if_pos c5]
  rw [if_neg c5]
  by_cases c6 : jsIncludes T "SOQL_EXECUTE_BEGIN" = true
  · rw [if_pos c6]
  rw [if_neg c6]
  by_cases c7 : jsIncludes T "DML_BEGIN" = true
  · rw [if_pos c7]
  rw [if_neg c7]
  by_cases c8 : jsIncludes T "USER_DEBUG" = true
  · rw [if_pos c8]
    cases hud : processUserDebug st.analysis lines i P
        (relMillis (jsParseFloat (P.getD 0 "")) st.startTime) (P.getD 0 "") with
    | error e => exact Nat.le_refl _
    | ok r =>
      show i + 1 ≤ r.2 + 1
      have := processUserDebug_ok_newIndex hud
      omega
  rw [if_neg c8]
  by_cases c9 : jsIncludes T "HEAP_ALLOCATE" = true
  · rw [if_pos c9]
  rw [if_neg c9]
  by_cases c10 : (jsIncludes T "EXCEPTION_THROWN" || jsIncludes T "FATAL_ERROR") = true
  · rw [if_pos c10]
  rw [if_neg c10]
  by_cases c11 : jsIncludes T "SYSTEM_METHOD_ENTRY" = true
  · rw [if_pos c11]
  rw [if_neg c11]
  by_cases c12 : jsIncludes T "SYSTEM_METHOD_EXIT" = true
  · rw [if_pos c12]
  rw [if_neg c12]
  by_cases c13 : jsIncludes T "LIMIT_USAGE_FOR_NS" = true
  · rw [if_pos c13]
  rw [if_neg c13]
  by_cases c14 : jsIncludes T "CUMULATIVE_LIMIT_USAGE" = true
  · rw [if_pos c14]
  rw [if_neg c14]
  by_cases c15 : jsIncludes T "CUMULATIVE_PROFILING" = true
  · rw [if_pos c15]
  rw [if_neg c15]
  by_cases c16 : jsIncludes T "CODE_COVERAGE" = true
  · rw [if_pos c16]
  rw [if_neg c16]
  by_cases c17 : (jsIncludes T "SYSTEM_MODE_ENTER" || jsIncludes T "SYSTEM_MODE_EXIT") = true
  · rw [if_pos c17]
  rw [if_neg c17]
  by_cases c18 : (jsIncludes T "CONSTRUCTOR_ENTRY" || jsIncludes T "CONSTRUCTOR_EXIT") = true
  · rw [if_pos c18]
  rw [if_neg c18]
  by_cases c19 : (jsIncludes T "METHOD_ENTRY" || jsIncludes T "METHOD_EXIT") = true
  · rw [if_pos c19]
  rw [if_neg c19]
  by_cases c20 : jsIncludes T "SOQL_EXECUTE_END" = true
  · rw [if_pos c20]
  rw [if_neg c20]
  by_cases c21 : jsIncludes T "DML_END" = true
  · rw [if_pos c21]
  rw [if_neg c21]

/-- Any amount of fuel at least `lines.length - i` yields the same result:
the fuelled loop with `lines.length` fuel from index `0` is the source's
unbounded loop. -/
lemma analyzeLoop_fuel_irrelevant (lines : List String) :
    ∀ (fuel fuel' i : Nat) (st : AnalyzerState),
      lines.length - i ≤ fuel → lines.length - i ≤ fuel' →
      analyzeLoop lines fuel i st = analyzeLoop lines fuel' i st := by
  intro fuel
  induction fuel with
  | zero =>
    intro fuel' i st hf hf'
    cases fuel' with
    | zero => rfl
    | succ f' =>
      rw [show analyzeLoop lines 0 i st = st from rfl, analyzeLoop_succ, if_neg (by omega)]
  | succ f ih =>
    intro fuel' i st hf hf'
    cases fuel' with
    | zero =>
      rw [show analyzeLoop lines 0 i st = st from rfl, analyzeLoop_succ, if_neg (by omega)]
    | succ f' =>
      rw [analyzeLoop_succ, analyzeLoop_succ]
      by_cases hi : i < lines.length
      · rw [if_pos hi, if_pos hi]
        have hnext := analyzeStep_next_ge lines i st
        exact ih f' (analyzeStep lines i st).2 (analyzeStep lines i st).1
          (by omega) (by omega)
      · rw [if_neg hi, if_neg hi]

/-- The driver-loop invariant used for C2: the finalized-limit list stays
empty during the pass and the limit-map keys stay duplicate-free. -/
def analyzerInv (st : AnalyzerState) : Prop :=
  st.analysis.limits = [] ∧ (st.limitMap.map Prod.fst).Nodup

/-- One driver step preserves the C2 invariant. -/
lemma analyzeStep_inv (lines : List String) (i : Nat) (st : AnalyzerState)
    (h : analyzerInv st) : analyzerInv (analyzeStep lines i st).1 := by
  obtain ⟨hL, hN⟩ := h
  unfold analyzeStep
  dsimp only
  set L := lines.getD i "" with hLdef
  set P := jsSplitChar '|' L with hPdef
  set T := P.getD 1 "" with hTdef
  by_cases c1 : (jsTrim L).isEmpty = true
  · rw [if_pos c1]; exact ⟨hL, hN⟩
  rw [if_neg c1]
  by_cases c2 : isPartOfPreviousDebugLine st.lastDebugLineIndex L = true
  · rw [if_pos c2]; exact ⟨by simp [hL], hN⟩
  rw [if_neg c2]
  by_cases c3 : P.length < 2
  · rw [if_pos c3]; exact ⟨hL, hN⟩
  rw [if_neg c3]
  by_cases c4 : jsIncludes T "EXECUTION_STARTED" = true
  · rw [if_pos c4]; exact ⟨by simp [processExecutionStarted, hL], hN⟩
  rw [if_neg c4]
  by_cases c5 : jsIncludes T "EXECUTION_FINISHED" = true
  · rw [if_pos c5]; exact ⟨by simp [processExecutionFinished, hL], hN⟩
  rw [if_neg c5]
  by_cases c6 : jsIncludes T "SOQL_EXECUTE_BEGIN" = true
  · rw [if_pos c6]; exact ⟨by simp [processSoqlQuery, hL], hN⟩
  rw [if_neg c6]
  by_cases c7 : jsIncludes T "DML_BEGIN" = true
  · rw [if_pos c7]; exact ⟨by simp [processDmlOperation, hL], hN⟩
  rw [if_neg c7]
  by_cases c8 : jsIncludes T "USER_DEBUG" = true
  · rw [if_pos c8]
    cases hud : processUserDebug st.analysis lines i P
        (relMillis (jsParseFloat (P.getD 0 "")) st.startTime) (P.getD 0 "") with
    | error e => simp only [hud]; exact ⟨hL, hN⟩
    | ok r =>
      simp only [hud]
      exact ⟨by rw [show ({ st with analysis := r.1, lastDebugLineIndex := (i : Int) }
        : AnalyzerState).analysis.limits = r.1.limits from rfl,
        processUserDebug_ok_limits hud]; exact hL, hN⟩
  rw [if_neg c8]
  by_cases c9 : jsIncludes T "HEAP_ALLOCATE" = true
  · rw [if_pos c9]; exact ⟨by simp [hL], hN⟩
  rw [if_neg c9]
  by_cases c10 : (jsIncludes T "EXCEPTION_THROWN" || jsIncludes T "FATAL_ERROR") = true
  · rw [if_pos c10]; exact ⟨by simp [processException, hL], hN⟩
  rw [if_neg c10]
  by_cases c11 : jsIncludes T "SYSTEM_METHOD_ENTRY" = true
  · rw [if_pos c11]; exact ⟨by simp [processMethodEntry, hL], hN⟩
  rw [if_neg c11]
  by_cases c12 : jsIncludes T "SYSTEM_METHOD_EXIT" = true
  · rw [if_pos c12]; exact ⟨by simp [processMethodExit, hL], hN⟩
  rw [if_neg c12]
  by_cases c13 : jsIncludes T "LIMIT_USAGE_FOR_NS" = true
  · rw [if_pos c13]; exact ⟨hL, processLimitUsage_keysNodup _ _ hN⟩
  rw [if_neg c13]
  by_cases c14 : jsIncludes T "CUMULATIVE_LIMIT_USAGE" = true
  · rw [if_pos c14]; exact ⟨by simp [hL], processCumulativeLimits_keysNodup _ _ _ _ hN⟩
  rw [if_neg c14]
  by_cases c15 : jsIncludes T "CUMULATIVE_PROFILING" = true
  · rw [if_pos c15]; exact ⟨hL, hN⟩
  rw [if_neg c15]
  by_cases c16 : jsIncludes T "CODE_COVERAGE" = true
  · rw [if_pos c16]; exact ⟨by simp [hL], hN⟩
  rw [if_neg c16]
  by_cases c17 : (jsIncludes T "SYSTEM_MODE_ENTER" || jsIncludes T "SYSTEM_MODE_EXIT") = true
  · rw [if_pos c17]; exact ⟨by simp [processSystemMode, hL], hN⟩
  rw [if_neg c17]
  by_cases c18 : (jsIncludes T "CONSTRUCTOR_ENTRY" || jsIncludes T "CONSTRUCTOR_EXIT") = true
  · rw [if_pos c18]; exact ⟨by simp [processConstructor, hL], hN⟩
  rw [if_neg c18]
  by_cases c19 : (jsIncludes T "METHOD_ENTRY" || jsIncludes T "METHOD_EXIT") = true
  · rw [if_pos c19]; exact ⟨by simp [processCustomMethod, hL], hN⟩
  rw [if_neg c19]
  by_cases c20 : jsIncludes T "SOQL_EXECUTE_END" = true
  · rw [if_pos c20]; exact ⟨by simp [hL], hN⟩
  rw [if_neg c20]
  by_cases c21 : jsIncludes T "DML_END" = true
  · rw [if_pos c21]; exact ⟨by simp [hL], hN⟩
  rw [if_neg c21]
  exact ⟨hL, hN⟩

/-- The whole driver loop preserves the C2 invariant. -/
lemma analyzeLoop_inv (lines : List String) :
    ∀ (fuel i : Nat) (st : AnalyzerState),
      analyzerInv st → analyzerInv (analyzeLoop lines fuel i st) := by
  intro fuel
  induction fuel with
  | zero => exact fun i st h => h
  | succ f ih =>
    intro i st h
    rw [analyzeLoop_succ]
    split
    · exact ih _ _ (analyzeStep_inv lines i st h)
    · exact h

/-- Inserting into the sorted list adds exactly one occurrence. -/
lemma countP_insertByPctDesc (x : LimitUsageRec) (l : List LimitUsageRec)
    (p : LimitUsageRec → Bool) :
    (insertByPctDesc x l).countP p = l.countP p + (if p x then 1 else 0) := by
  induction l with
  | nil => simp [insertByPctDesc, List.countP_cons]
  | cons y ys ih =>
    unfold insertByPctDesc
    split <;> simp [List.countP_cons, ih] <;> omega

/-- The stable sort is a permutation as far as counting goes. -/
lemma countP_stableSortByPctDesc (l : List LimitUsageRec) (p : LimitUsageRec → Bool) :
    (stableSortByPctDesc l).countP p = l.countP p := by
  have aux : ∀ (xs : List LimitUsageRec) (acc : List LimitUsageRec),
      ((xs.foldl (fun acc x => insertByPctDesc x acc) acc).countP p)
        = acc.countP p + xs.countP p := by
    intro xs
    induction xs with
    | nil => intro acc; simp
    | cons x xs ih =>
      intro acc
      rw [List.foldl_cons, ih, countP_insertByPctDesc]
      simp [List.countP_cons]
      omega
  unfold stableSortByPctDesc
  rw [aux]
  simp

/-- A list with duplicate-free keys has at most one entry per key. -/
lemma countP_fst_le_one (m : List (String × Nat × Nat)) (n : String)
    (h : (m.map Prod.fst).Nodup) : m.countP (fun e => e.1 == n) ≤ 1 := by
  induction m with
  | nil => simp
  | cons e rest ih =>
    simp only [List.map_cons, List.nodup_cons] at h
    by_cases he : e.1 = n
    · have h0 : rest.countP (fun e => e.1 == n) = 0 := by
        apply List.countP_eq_zero.mpr
        intro x hx
        simp only [beq_iff_eq]
        intro hxn
        exact h.1 (List.mem_map.mpr ⟨x, hx, by rw [hxn, he]⟩)
      simp [List.countP_cons, h0, he]
    · simp [List.countP_cons, he]
      exact ih h.2

/-- A field that yields no sample leaves the cumulative fold state
unchanged. -/
lemma cumulativeFold_sample_none {p : String} (h : sampleOf p = none) (rel : Option ℤ)
    (acc : List (String × Nat × Nat) × LogAnalysis) : cumulativeFold rel acc p = acc := by
  unfold cumulativeFold
  dsimp only
  unfold sampleOf at h
  dsimp only at h
  by_cases he : (jsTrim p).isEmpty = true
  · rw [if_pos he]
  · rw [if_neg he]
    rw [if_neg he] at h
    cases hm : limitMatch (jsTrim p) with
    | none => simp [hm]
    | some r => rw [hm] at h; simp at h

/-- A field that yields a sample updates the map through `setEntry`,
appends the governor entry, and appends a high-usage timeline entry
exactly when the sample's own ratio check fires. -/
lemma cumulativeFold_sample_some {p : String} {s : String × Nat × Nat}
    (h : sampleOf p = some s) (rel : Option ℤ)
    (acc : List (String × Nat × Nat) × LogAnalysis) :
    cumulativeFold rel acc p =
      (setEntry acc.1 s.1 (s.2.1, s.2.2),
       { acc.2 with
         governorLimits := acc.2.governorLimits ++ [⟨s.1, s.2.1, s.2.2⟩]
         timeline := acc.2.timeline ++
           (if highUsage s.2.1 s.2.2 then
             [⟨"High Limit Usage", rel,
               some (s.1 ++ ": " ++ toString s.2.1 ++ " of " ++ toString s.2.2
                 ++ " (" ++ pctText s.2.1 s.2.2 ++ "%)")⟩]
            else []) }) := by
  unfold sampleOf at h
  dsimp only at h
  by_cases he : (jsTrim p).isEmpty = true
  · rw [if_pos he] at h
    cases h
  · rw [if_neg he] at h
    cases hm : limitMatch (jsTrim p) with
    | none => rw [hm] at h; cases h
    | some r =>
      rw [hm] at h
      injection h with h2
      subst h2
      unfold cumulativeFold
      dsimp only
      rw [if_neg he, hm]
      dsimp only
      by_cases hh : highUsage r.2.1 r.2.2 = true
      · rw [if_pos hh, if_pos hh]
      · rw [if_neg hh, if_neg hh]
        simp

/-- `processCumulativeLimits` appends one timeline entry for exactly the
cumulative samples whose own ratio check fires, and one governor entry for
every parsed sample, in field order. -/
lemma processCumulativeLimits_delta (m : List (String × Nat × Nat)) (a : LogAnalysis)
    (parts : List String) (rel : Option ℤ) :
    (processCumulativeLimits m a parts rel).2.timeline
        = a.timeline ++ (parts.drop 3).filterMap (highEntryOf rel) ∧
    (processCumulativeLimits m a parts rel).2.governorLimits
        = a.governorLimits ++ (parts.drop 3).filterMap govEntryOf := by
  unfold processCumulativeLimits
  generalize parts.drop 3 = ps
  induction ps generalizing m a with
  | nil => simp
  | cons p ps ih =>
    rw [List.foldl_cons]
    cases hs : sampleOf p with
    | none =>
      rw [cumulativeFold_sample_none hs]
      simp [List.filterMap_cons, highEntryOf, govEntryOf, hs, ih m a]
    | some s =>
      rw [cumulativeFold_sample_some hs]
      by_cases hh : highUsage s.2.1 s.2.2 = true
      · simp [List.filterMap_cons, highEntryOf, govEntryOf, hs, hh, ih, List.append_assoc]
      · simp [List.filterMap_cons, highEntryOf, govEntryOf, hs, hh, ih, List.append_assoc]

/-- Last write wins in the limit map: after a `set`, looking the key up
yields exactly the value just written. -/
lemma entryLookup_setEntry (m : List (String × Nat × Nat)) (k : String) (v : Nat × Nat) :
    entryLookup (setEntry m k v) k = some v := by
  induction m with
  | nil => simp [setEntry, entryLookup]
  | cons e rest ih =>
    by_cases he : e.1 = k <;> simp [setEntry, entryLookup, he, ih]

/-- The C2 scenario: the limit `Queries` is sampled at 10/100, then at
55/100, in two cumulative-limit events. -/
def c2Log : String :=
  "1:2:3|CUMULATIVE_LIMIT_USAGE|ns|Queries: 10 of 100" ++ "\n"
    ++ "1:2:4|CUMULATIVE_LIMIT_USAGE|ns|Queries: 55 of 100"

set_option maxRecDepth 100000 in
set_option maxHeartbeats 1000000 in
/-- C2: on the concrete two-sample log the finalized list holds exactly
one `Queries` entry at the last sample 55/100 (55%), and exactly one
high-usage timeline entry exists, carrying the 55/100 sample; in general
the finalized list never holds two entries of one name (the map is
name-keyed), a `set` overwrites so that the last write is what the map
yields, and each cumulative event appends high-usage entries exactly at
its qualifying samples. -/
theorem claim_C2 :
    ((analyzeApexLog c2Log).limits = [⟨"Queries", 55, 100, 55⟩] ∧
     (analyzeApexLog c2Log).timeline.filter (fun e => e.event == "High Limit Usage")
        = [⟨"High Limit Usage", some 1000, some "Queries: 55 of 100 (55%)"⟩] ∧
     (analyzeApexLog c2Log).governorLimits
        = [⟨"Queries", 10, 100⟩, ⟨"Queries", 55, 100⟩]) ∧
    (∀ (log name : String),
      (analyzeApexLog log).limits.countP (fun l => l.name == name) ≤ 1) ∧
    (∀ (m : List (String × Nat × Nat)) (k : String) (v : Nat × Nat),
      entryLookup (setEntry m k v) k = some v) ∧
    (∀ (m : List (String × Nat × Nat)) (a : LogAnalysis) (parts : List String)
        (rel : Option ℤ),
      (processCumulativeLimits m a parts rel).2.timeline
          = a.timeline ++ (parts.drop 3).filterMap (highEntryOf rel) ∧
      (processCumulativeLimits m a parts rel).2.governorLimits
          = a.governorLimits ++ (parts.drop 3).filterMap govEntryOf) := by
  refine ⟨by decide, ?_, entryLookup_setEntry, processCumulativeLimits_delta⟩
  intro log name
  unfold analyzeApexLog analyzeApexLogLines
  dsimp only
  have hinv := analyzeLoop_inv (jsSplitChar '\n' log) (jsSplitChar '\n' log).length 0
    initAnalyzerState ⟨rfl, List.nodup_nil⟩
  unfold finalizeAnalysis
  dsimp only
  rw [countP_stableSortByPctDesc, hinv.1, List.nil_append, List.countP_map]
  exact countP_fst_le_one _ _ hinv.2

end ApexLog

